import Mathlib

/-! # WORM storage of the SCM service: hash-chained records and evidence packages

A shallow embedding of `scm-service/internal/worm/storage.go` and theorems about it.

Conventions of the embedding

* A Go `string` is a Lean `String`; `[]byte(s)` is the UTF-8 encoding of `s`.
* A Go `map[string]*T` is an association list `GoMap T`.  The order of the list stands
  for the order in which a `for ... range` loop yields the entries; Go fixes no such
  order, so statements about independence of the iteration order quantify over
  permutations of the list.
* A record pointer stored in a map or history is modelled by the record value: every
  `Store*` call is taken to receive a record object of its own, as the callers in
  `market_oracle.go` do (`&worm.ValidationRecord{...}`).
* A method with receiver `*InMemoryStorage` that writes to the storage returns the new
  storage; the Go `error` result is an `Option String` (`none` is `nil`).
* Library functions that the source calls (`sha256.Sum256`, `hex.EncodeToString`,
  `fmt.Sprintf` verbs `%s %t %f`, `time.Time.Format(time.RFC3339)`, `time.Time.After`)
  are written out as executable definitions in the section `Go library`.
* `proto.EvidenceItem` and `json.Marshal` are not part of the sources at hand: the item
  type `E` and the function `marshal : List E → String` are parameters.
-/

namespace Worm

/-! ## Go library -/

/-- Round constants of SHA-256 (FIPS 180-4, section 4.2.2), in decimal: the first 32 bits of
the fractional parts of the cube roots of the first 64 primes, from `0x428a2f98` to
`0xc67178f2`. -/
def sha256K : List Nat :=
  [1116352408, 1899447441, 3049323471, 3921009573, 961987163, 1508970993,
   2453635748, 2870763221, 3624381080, 310598401, 607225278, 1426881987,
   1925078388, 2162078206, 2614888103, 3248222580, 3835390401, 4022224774,
   264347078, 604807628, 770255983, 1249150122, 1555081692, 1996064986,
   2554220882, 2821834349, 2952996808, 3210313671, 3336571891, 3584528711,
   113926993, 338241895, 666307205, 773529912, 1294757372, 1396182291,
   1695183700, 1986661051, 2177026350, 2456956037, 2730485921, 2820302411,
   3259730800, 3345764771, 3516065817, 3600352804, 4094571909, 275423344,
   430227734, 506948616, 659060556, 883997877, 958139571, 1322822218,
   1537002063, 1747873779, 1955562222, 2024104815, 2227730452, 2361852424,
   2428436474, 2756734187, 3204031479, 3329325298]

/-- The eight 32-bit words of a SHA-256 chaining value. -/
structure Sha256State where
  a : Nat
  b : Nat
  c : Nat
  d : Nat
  e : Nat
  f : Nat
  g : Nat
  h : Nat
deriving DecidableEq

/-- Initial hash value of SHA-256 (FIPS 180-4, section 5.3.3), in decimal: the first 32 bits
of the fractional parts of the square roots of the first 8 primes. -/
def sha256Init : Sha256State :=
  { a := 1779033703, b := 3144134277, c := 1013904242, d := 2773480762,
    e := 1359893119, f := 2600822924, g := 528734635, h := 1541459225 }

/-- Addition of 32-bit words. -/
def add32 (x y : Nat) : Nat := (x + y) % 2 ^ 32

/-- Rotation of a 32-bit word to the right by `n` bits. -/
def rotr32 (x n : Nat) : Nat := ((x >>> n) ||| (x <<< (32 - n))) % 2 ^ 32

/-- Complement of a 32-bit word. -/
def not32 (x : Nat) : Nat := (2 ^ 32 - 1) ^^^ (x % 2 ^ 32)

/-- Big-endian bytes of a word of `n` bytes. -/
def beBytes : Nat → Nat → List Nat
  | 0, _ => []
  | n + 1, x => (x / 256 ^ n) % 256 :: beBytes n x

/-- The word that big-endian bytes spell. -/
def beWord (bs : List Nat) : Nat := bs.foldl (fun acc b => acc * 256 + b) 0

/-- Padding of a message of bytes to a multiple of 64 bytes: the byte 0x80, zero bytes,
and the bit length as a 64-bit big-endian number. -/
def sha256Pad (msg : List Nat) : List Nat :=
  let zeros := (64 - (msg.length + 9) % 64) % 64
  msg ++ 0x80 :: List.replicate zeros 0 ++ beBytes 8 ((msg.length * 8) % 2 ^ 64)

/-- Split a list into chunks of `n` elements; `k` bounds the number of chunks. -/
def chunks (n : Nat) : Nat → List Nat → List (List Nat)
  | 0, _ => []
  | k + 1, l => if l.isEmpty then [] else l.take n :: chunks n k (l.drop n)

/-- Extend the message schedule by `k` words. -/
def sha256Extend : Nat → List Nat → List Nat
  | 0, w => w
  | k + 1, w =>
    let i := w.length
    let w15 := w.getD (i - 15) 0
    let w2 := w.getD (i - 2) 0
    let s0 := rotr32 w15 7 ^^^ rotr32 w15 18 ^^^ (w15 >>> 3)
    let s1 := rotr32 w2 17 ^^^ rotr32 w2 19 ^^^ (w2 >>> 10)
    sha256Extend k (w ++ [add32 (add32 (add32 (w.getD (i - 16) 0) s0) (w.getD (i - 7) 0)) s1])

/-- The 64 words of the message schedule of one 64-byte block. -/
def sha256Schedule (block : List Nat) : List Nat :=
  sha256Extend 48 ((chunks 4 16 block).map beWord)

/-- One round of the compression function with round constant `k` and schedule word `w`. -/
def sha256Round (s : Sha256State) (kw : Nat × Nat) : Sha256State :=
  let s1 := rotr32 s.e 6 ^^^ rotr32 s.e 11 ^^^ rotr32 s.e 25
  let ch := (s.e &&& s.f) ^^^ (not32 s.e &&& s.g)
  let t1 := add32 (add32 (add32 (add32 s.h s1) ch) kw.1) kw.2
  let s0 := rotr32 s.a 2 ^^^ rotr32 s.a 13 ^^^ rotr32 s.a 22
  let maj := (s.a &&& s.b) ^^^ (s.a &&& s.c) ^^^ (s.b &&& s.c)
  let t2 := add32 s0 maj
  ⟨add32 t1 t2, s.a, s.b, s.c, add32 s.d t1, s.e, s.f, s.g⟩

/-- The compression function: 64 rounds over one block, then the feed-forward sum. -/
def sha256Block (s : Sha256State) (block : List Nat) : Sha256State :=
  let t := (sha256K.zip (sha256Schedule block)).foldl sha256Round s
  ⟨add32 s.a t.a, add32 s.b t.b, add32 s.c t.c, add32 s.d t.d,
   add32 s.e t.e, add32 s.f t.f, add32 s.g t.g, add32 s.h t.h⟩

/-- Go `sha256.Sum256`: the 32 bytes of the SHA-256 digest of a byte sequence. -/
def sha256 (msg : List UInt8) : List UInt8 :=
  let padded := sha256Pad (msg.map UInt8.toNat)
  let s := (chunks 64 (padded.length / 64) padded).foldl sha256Block sha256Init
  ([s.a, s.b, s.c, s.d, s.e, s.f, s.g, s.h].map (fun w => (beBytes 4 w).map UInt8.ofNat)).flatten

/-- The lower-case hexadecimal digit of a number below 16. -/
def hexDigit (n : Nat) : Char :=
  "0123456789abcdef".toList.getD n '0'

/-- Go `hex.EncodeToString`: two lower-case hexadecimal digits per byte. -/
def hexEncodeToString (bs : List UInt8) : String :=
  String.mk (bs.flatMap (fun b => [hexDigit (b.toNat / 16), hexDigit (b.toNat % 16)]))

/-- Go `[]byte(s)`: the bytes of a string, its UTF-8 encoding. -/
def bytesOf (s : String) : List UInt8 := s.toUTF8.data.toList

/-- The expression `hex.EncodeToString(hash[:])` after `hash := sha256.Sum256([]byte(data))`. -/
def sha256Hex (data : String) : String := hexEncodeToString (sha256 (bytesOf data))

/-- Decimal digits of a natural number, padded with zeros on the left to `width` digits
(Go `appendInt` for a number that is not negative). -/
def padNat (width n : Nat) : String :=
  let ds := Nat.repr n
  String.mk (List.replicate (width - ds.length) '0') ++ ds

/-- Go `float64`, given by its IEEE 754 binary64 bit pattern (taken modulo 2^64). -/
structure Float64 where
  bits : Nat
deriving DecidableEq

/-- The verb `%f` of `fmt.Sprintf` on a `float64`: `NaN`, `+Inf`, `-Inf`, and otherwise
the decimal expansion with six digits after the point, the exact binary value rounded to
nearest, ties to even, with a minus sign when the sign bit is set. -/
def Float64.format (x : Float64) : String :=
  let b := x.bits % 2 ^ 64
  let sign := b / 2 ^ 63
  let e := (b / 2 ^ 52) % 2048
  let m := b % 2 ^ 52
  if e = 2047 then
    if m ≠ 0 then "NaN" else if sign = 1 then "-Inf" else "+Inf"
  else
    -- the value is mant * 2 ^ (ex - 1075)
    let mant := if e = 0 then m else m + 2 ^ 52
    let ex := if e = 0 then 1 else e
    let num := mant * 10 ^ 6 * 2 ^ (ex - 1075)
    let den := 2 ^ (1075 - ex)
    let q := num / den
    let r := num % den
    let rounded := if den < 2 * r ∨ (2 * r = den ∧ q % 2 = 1) then q + 1 else q
    (if sign = 1 then "-" else "") ++ Nat.repr (rounded / 10 ^ 6) ++ "." ++ padNat 6 (rounded % 10 ^ 6)

/-- The verb `%t` of `fmt.Sprintf` on a `bool`. -/
def fmtBool (b : Bool) : String := if b then "true" else "false"

/-- Go `time.Time` without a monotonic clock reading: the instant as seconds and
nanoseconds since the Unix epoch, and the offset of its location in seconds east of UTC.
The records of this package get their timestamps from `Timestamp.AsTime()` and
`time.Now().UTC()`, which carry no monotonic reading. -/
structure Time where
  sec : Int
  nsec : Nat
  offset : Int
deriving DecidableEq

/-- Go `t.After(u)`: the instant `t` is after the instant `u`; locations play no part. -/
def Time.After (t u : Time) : Bool :=
  decide (u.sec < t.sec) || (decide (t.sec = u.sec) && decide (u.nsec < t.nsec))

/-- Go `appendInt(b, x, width)`: a minus sign for a negative number, then the digits
padded with zeros to `width`. -/
def padInt (width : Nat) (x : Int) : String :=
  if x < 0 then "-" ++ padNat width x.natAbs else padNat width x.natAbs

/-- Year, month and day of the proleptic Gregorian calendar for a number of days since
1970-01-01 (Go `absDate`). -/
def civilFromDays (days : Int) : Int × Int × Int :=
  let z := days + 719468
  let era := z / 146097
  let doe := z - era * 146097
  let yoe := (doe - doe / 1460 + doe / 36524 - doe / 146096) / 365
  let doy := doe - (365 * yoe + yoe / 4 - yoe / 100)
  let mp := (5 * doy + 2) / 153
  let d := doy - (153 * mp + 2) / 5 + 1
  let m := if mp < 10 then mp + 3 else mp - 9
  let y := yoe + era * 400 + (if m ≤ 2 then 1 else 0)
  (y, m, d)

/-- Go `t.Format(time.RFC3339)`, layout `2006-01-02T15:04:05Z07:00`: the wall clock of the
time in its own location, to the second, then `Z` for offset zero and `+hh:mm` or
`-hh:mm` otherwise. -/
def Time.FormatRFC3339 (t : Time) : String :=
  let loc := t.sec + t.offset
  let days := loc / 86400
  let sod := loc % 86400
  let ymd := civilFromDays days
  let zone := Int.tdiv t.offset 60
  let zoneStr :=
    if t.offset = 0 then "Z"
    else (if zone < 0 then "-" else "+") ++
      padNat 2 (zone.natAbs / 60) ++ ":" ++ padNat 2 (zone.natAbs % 60)
  padInt 4 ymd.1 ++ "-" ++ padInt 2 ymd.2.1 ++ "-" ++ padInt 2 ymd.2.2 ++ "T" ++
    padInt 2 (sod / 3600) ++ ":" ++ padInt 2 (sod % 3600 / 60) ++ ":" ++ padInt 2 (sod % 60) ++
    zoneStr

/-- Go `map[string]*V` as an association list; the order of `entries` stands for the order
in which `range` yields them. -/
structure GoMap (V : Type) where
  entries : List (String × V)

/-- Go `make(map[string]*V)`. -/
def GoMap.empty {V : Type} : GoMap V := ⟨[]⟩

/-- Go `v, exists := m[k]`. -/
def GoMap.get {V : Type} (m : GoMap V) (k : String) : Option V :=
  (m.entries.find? (fun e => e.1 == k)).map Prod.snd

/-- Go `m[k] = v`: the entry of `k` is replaced when there is one and added otherwise. -/
def GoMap.set {V : Type} (m : GoMap V) (k : String) (v : V) : GoMap V :=
  if m.entries.any (fun e => e.1 == k) then
    ⟨m.entries.map (fun e => if e.1 == k then (k, v) else e)⟩
  else
    ⟨m.entries ++ [(k, v)]⟩

/-- The values that `for _, v := range m` yields, in the order of the entries. -/
def GoMap.values {V : Type} (m : GoMap V) : List V := m.entries.map Prod.snd

/-! ## Data model (`storage.go`, lines 24-113) -/

/-- Go `ValidationRecord`. -/
structure ValidationRecord where
  EventID : String
  UserID : String
  OrderID : String
  MaterialsCost : Float64
  LaborCost : Float64
  Currency : String
  Status : String
  Deviation : Float64
  MedianPrice : Float64
  SuggestedMedian : Float64
  AuditRequired : Bool
  Reason : String
  Timestamp : Time
  Hash : String
  PreviousHash : String
deriving DecidableEq

/-- Go `AppealRecord`; `E` is `proto.EvidenceItem`. -/
structure AppealRecord (E : Type) where
  AppealID : String
  EventID : String
  UserID : String
  Justification : String
  EvidenceItems : List E
  Status : String
  SubmittedAt : Time
  Hash : String
  PreviousHash : String
deriving DecidableEq

/-- Go `AccessCheckRecord`. -/
structure AccessCheckRecord where
  ID : String
  UserID : String
  OrderID : String
  AccessGranted : Bool
  Timestamp : Time
  Reason : String
  RequiresBiometrics : Bool
  Hash : String
  PreviousHash : String
deriving DecidableEq

/-- Go `GeofenceCheckRecord`. -/
structure GeofenceCheckRecord where
  ID : String
  UserID : String
  OrderID : String
  IsInside : Bool
  Latitude : Float64
  Longitude : Float64
  Timestamp : Time
  ViolationReason : String
  Hash : String
  PreviousHash : String
deriving DecidableEq

/-- Go `UserHistory`. -/
structure UserHistory (E : Type) where
  UserID : String
  Validations : List ValidationRecord
  Appeals : List (AppealRecord E)
  AccessChecks : List AccessCheckRecord
  GeofenceChecks : List GeofenceCheckRecord
deriving DecidableEq

/-- Go `InMemoryStorage`. -/
structure InMemoryStorage (E : Type) where
  validations : GoMap ValidationRecord
  appeals : GoMap (AppealRecord E)
  accessChecks : GoMap AccessCheckRecord
  geofenceChecks : GoMap GeofenceCheckRecord
  userHistories : GoMap (UserHistory E)

/-- Go `NewInMemoryStorage`. -/
def NewInMemoryStorage {E : Type} : InMemoryStorage E :=
  ⟨GoMap.empty, GoMap.empty, GoMap.empty, GoMap.empty, GoMap.empty⟩

/-! ## Hash functions (`storage.go`, lines 302-368) -/

/-- The string `data` of `calculateHash`:
`fmt.Sprintf("%s%s%s%f%f%s%s%f%s%s", EventID, UserID, OrderID, MaterialsCost, LaborCost,
Currency, Status, Deviation, Reason, Timestamp.Format(time.RFC3339))`. -/
def calculateHashData (record : ValidationRecord) : String :=
  record.EventID ++ record.UserID ++ record.OrderID ++ record.MaterialsCost.format ++
    record.LaborCost.format ++ record.Currency ++ record.Status ++ record.Deviation.format ++
    record.Reason ++ record.Timestamp.FormatRFC3339

/-- Go `calculateHash`. -/
def calculateHash (record : ValidationRecord) : String :=
  sha256Hex (calculateHashData record)

/-- The string `data` of `calculateAppealHash`:
`fmt.Sprintf("%s%s%s%s%s%s", AppealID, EventID, UserID, Justification, string(evidenceJSON),
SubmittedAt.Format(time.RFC3339))`, where `marshal` gives `string(evidenceJSON)`. -/
def calculateAppealHashData {E : Type} (marshal : List E → String) (record : AppealRecord E) :
    String :=
  record.AppealID ++ record.EventID ++ record.UserID ++ record.Justification ++
    marshal record.EvidenceItems ++ record.SubmittedAt.FormatRFC3339

/-- Go `calculateAppealHash`. -/
def calculateAppealHash {E : Type} (marshal : List E → String) (record : AppealRecord E) :
    String :=
  sha256Hex (calculateAppealHashData marshal record)

/-- The string `data` of `calculateAccessCheckHash`:
`fmt.Sprintf("%s%s%s%t%s%t%s", ID, UserID, OrderID, AccessGranted, Reason,
RequiresBiometrics, Timestamp.Format(time.RFC3339))`. -/
def calculateAccessCheckHashData (record : AccessCheckRecord) : String :=
  record.ID ++ record.UserID ++ record.OrderID ++ fmtBool record.AccessGranted ++
    record.Reason ++ fmtBool record.RequiresBiometrics ++ record.Timestamp.FormatRFC3339

/-- Go `calculateAccessCheckHash`. -/
def calculateAccessCheckHash (record : AccessCheckRecord) : String :=
  sha256Hex (calculateAccessCheckHashData record)

/-- The string `data` of `calculateGeofenceCheckHash`:
`fmt.Sprintf("%s%s%s%t%f%f%s%s", ID, UserID, OrderID, IsInside, Latitude, Longitude,
ViolationReason, Timestamp.Format(time.RFC3339))`. -/
def calculateGeofenceCheckHashData (record : GeofenceCheckRecord) : String :=
  record.ID ++ record.UserID ++ record.OrderID ++ fmtBool record.IsInside ++
    record.Latitude.format ++ record.Longitude.format ++ record.ViolationReason ++
    record.Timestamp.FormatRFC3339

/-- Go `calculateGeofenceCheckHash`. -/
def calculateGeofenceCheckHash (record : GeofenceCheckRecord) : String :=
  sha256Hex (calculateGeofenceCheckHashData record)

/-! ## Storing records (`storage.go`, lines 126-207 and 370-403) -/

/-- Go `getPreviousHash`: the body is `return ""`. -/
def getPreviousHash {E : Type} (_s : InMemoryStorage E) (_userID : String) : String := ""

/-- Go `updateUserHistory`: the history of the user is created when there is none, and
each record that is not `nil` is appended to the sequence of its kind. -/
def updateUserHistory {E : Type} (s : InMemoryStorage E) (userID : String)
    (validation : Option ValidationRecord) (appeal : Option (AppealRecord E))
    (accessCheck : Option AccessCheckRecord) (geofenceCheck : Option GeofenceCheckRecord) :
    InMemoryStorage E :=
  let history : UserHistory E :=
    match s.userHistories.get userID with
    | some h => h
    | none => ⟨userID, [], [], [], []⟩
  let history :=
    match validation with
    | some v => { history with Validations := history.Validations ++ [v] }
    | none => history
  let history :=
    match appeal with
    | some a => { history with Appeals := history.Appeals ++ [a] }
    | none => history
  let history :=
    match accessCheck with
    | some a => { history with AccessChecks := history.AccessChecks ++ [a] }
    | none => history
  let history :=
    match geofenceCheck with
    | some g => { history with GeofenceChecks := history.GeofenceChecks ++ [g] }
    | none => history
  { s with userHistories := s.userHistories.set userID history }

/-- Go `StoreValidation`; the second component is the returned `error`. -/
def StoreValidation {E : Type} (s : InMemoryStorage E) (record : ValidationRecord) :
    InMemoryStorage E × Option String :=
  let record := { record with Hash := calculateHash record }
  let record := { record with PreviousHash := getPreviousHash s record.UserID }
  let s := { s with validations := s.validations.set record.EventID record }
  let s := updateUserHistory s record.UserID (some record) none none none
  (s, none)

/-- Go `StoreAppeal`; the second component is the returned `error`. -/
def StoreAppeal {E : Type} (marshal : List E → String) (s : InMemoryStorage E)
    (record : AppealRecord E) : InMemoryStorage E × Option String :=
  let record := { record with Hash := calculateAppealHash marshal record }
  let record := { record with PreviousHash := getPreviousHash s record.UserID }
  let s := { s with appeals := s.appeals.set record.AppealID record }
  let s := updateUserHistory s record.UserID none (some record) none none
  (s, none)

/-- Go `StoreAccessCheck`; the second component is the returned `error`. -/
def StoreAccessCheck {E : Type} (s : InMemoryStorage E) (record : AccessCheckRecord) :
    InMemoryStorage E × Option String :=
  let record := { record with Hash := calculateAccessCheckHash record }
  let record := { record with PreviousHash := getPreviousHash s record.UserID }
  let s := { s with accessChecks := s.accessChecks.set record.ID record }
  let s := updateUserHistory s record.UserID none none (some record) none
  (s, none)

/-- Go `StoreGeofenceCheck`; the second component is the returned `error`. -/
def StoreGeofenceCheck {E : Type} (s : InMemoryStorage E) (record : GeofenceCheckRecord) :
    InMemoryStorage E × Option String :=
  let record := { record with Hash := calculateGeofenceCheckHash record }
  let record := { record with PreviousHash := getPreviousHash s record.UserID }
  let s := { s with geofenceChecks := s.geofenceChecks.set record.ID record }
  let s := updateUserHistory s record.UserID none none none (some record)
  (s, none)

/-- Go `GetUserHistory`: the storage after the call, the returned history and the returned
`error`. -/
def GetUserHistory {E : Type} (s : InMemoryStorage E) (userID : String) :
    InMemoryStorage E × UserHistory E × Option String :=
  match s.userHistories.get userID with
  | none => (s, ⟨userID, [], [], [], []⟩, none)
  | some history => (s, history, none)

/-! ## Evidence packages (`storage.go`, lines 209-300 and 405-500) -/

/-- The anonymous struct `struct { id, typeStr string; timestamp time.Time; hash string }`
of `createHashChain`. -/
structure ChainRecord where
  id : String
  typeStr : String
  timestamp : Time
  hash : String
deriving DecidableEq

/-- Go `proto.HashChainNode`, with the fields that `createHashChain` fills (`Type_` is the
field `Type`). -/
structure HashChainNode where
  Id : String
  Type_ : String
  Hash : String
  PreviousHash : String
  Timestamp : String
deriving DecidableEq

/-- The three `range` loops of `createHashChain` (lines 418-449): the validations, then the
access checks, then the geofence checks whose `OrderID` is `orderID`, each kind in the
order in which its map yields them.  Appeals are not collected. -/
def collectRecords {E : Type} (s : InMemoryStorage E) (orderID : String) : List ChainRecord :=
  ((s.validations.values.filter (fun v => v.OrderID == orderID)).map
      (fun v => ChainRecord.mk v.EventID "VALIDATION" v.Timestamp v.Hash)) ++
  ((s.accessChecks.values.filter (fun a => a.OrderID == orderID)).map
      (fun a => ChainRecord.mk a.ID "ACCESS_CHECK" a.Timestamp a.Hash)) ++
  ((s.geofenceChecks.values.filter (fun g => g.OrderID == orderID)).map
      (fun g => ChainRecord.mk g.ID "GEOFENCE_CHECK" g.Timestamp g.Hash))

/-- The body of the inner loop of the sort (lines 454-456):
`if records[i].timestamp.After(records[j].timestamp) { records[i], records[j] = records[j], records[i] }`. -/
def exchangeStep (records : List ChainRecord) (i j : Nat) : List ChainRecord :=
  match records[i]?, records[j]? with
  | some a, some b =>
    if a.timestamp.After b.timestamp then (records.set i b).set j a else records
  | _, _ => records

/-- The inner loop `for j := i + 1; j < len(records); j++`, started at `j` with `n`
iterations left. -/
def sortInner (i : Nat) : Nat → Nat → List ChainRecord → List ChainRecord
  | 0, _, records => records
  | n + 1, j, records => sortInner i n (j + 1) (exchangeStep records i j)

/-- The outer loop `for i := 0; i < len(records)-1; i++`, started at `i` with `n`
iterations left. -/
def sortOuter : Nat → Nat → List ChainRecord → List ChainRecord
  | 0, _, records => records
  | n + 1, i, records =>
    sortOuter n (i + 1) (sortInner i (records.length - (i + 1)) (i + 1) records)

/-- The nested loops of `createHashChain` under the comment `Sort by timestamp`
(lines 451-458). -/
def sortByTimestamp (records : List ChainRecord) : List ChainRecord :=
  sortOuter (records.length - 1) 0 records

/-- The last loop of `createHashChain` (lines 460-471): one node per record, each with the
hash of the record before it as `PreviousHash`; `previousHash` is the loop variable, which
starts as the empty string. -/
def chainNodes : String → List ChainRecord → List HashChainNode
  | _, [] => []
  | previousHash, record :: rest =>
    HashChainNode.mk record.id record.typeStr record.hash previousHash
        record.timestamp.FormatRFC3339 ::
      chainNodes record.hash rest

/-- Go `createHashChain`. -/
def createHashChain {E : Type} (s : InMemoryStorage E) (orderID : String) :
    List HashChainNode :=
  chainNodes "" (sortByTimestamp (collectRecords s orderID))

/-- Go `calculateMerkleRoot`: the empty string for an empty chain, and otherwise the
SHA-256 of the node hashes joined in chain order. -/
def calculateMerkleRoot (hashChain : List HashChainNode) : String :=
  if hashChain.length = 0 then ""
  else
    let allHashes := hashChain.foldl (fun acc node => acc ++ node.Hash) ""
    sha256Hex allHashes

/-- Go `signEvidencePackage`. -/
def signEvidencePackage (orderID merkleRoot : String) : String :=
  sha256Hex (orderID ++ merkleRoot)

/-- Go `proto.ManualEntryValidation`, with the fields that `GetEvidencePackage` fills. -/
structure ManualEntryValidation where
  Id : String
  UserId : String
  OrderId : String
  MaterialsCost : Float64
  LaborCost : Float64
  Currency : String
  RiskVerdict : Int
  AiConfidenceScore : Float64
  RequiresAppeal : Bool
  CreatedAt : String
deriving DecidableEq

/-- Go `proto.AccessCheck`, with the fields that `GetEvidencePackage` fills. -/
structure AccessCheck where
  Id : String
  UserId : String
  OrderId : String
  AccessGranted : Bool
  Timestamp : String
  Reason : String
deriving DecidableEq

/-- Go `proto.GeofenceCheck`, with the fields that `GetEvidencePackage` fills. -/
structure GeofenceCheck where
  Id : String
  UserId : String
  OrderId : String
  IsInside : Bool
  Latitude : Float64
  Longitude : Float64
  Timestamp : String
  ViolationReason : String
deriving DecidableEq

/-- Go `proto.ComplianceEvent`, with the fields that `GetEvidencePackage` fills; `Details`
is the map literal as its list of entries. -/
structure ComplianceEvent where
  EventId : String
  EventType : String
  Timestamp : String
  UserId : String
  Details : List (String × String)
deriving DecidableEq

/-- Go `EvidencePackage`. -/
structure EvidencePackage where
  OrderID : String
  GeneratedAt : Time
  Events : List ComplianceEvent
  Validations : List ManualEntryValidation
  AccessChecks : List AccessCheck
  GeofenceChecks : List GeofenceCheck
  HashChain : List HashChainNode
  RootHash : String
  MerkleRoot : String
  Signature : String
deriving DecidableEq

/-- What the generated `proto` package and the clock give to `GetEvidencePackage`:
`statusValue` is the table `proto.ValidationStatus_value` (0 for a name it does not hold),
`statusString` is `proto.ValidationStatus.String`, and `now` is `time.Now().UTC()`. -/
structure PackageEnv where
  statusValue : String → Int
  statusString : Int → String
  now : Time

/-- Go `GetEvidencePackage`.  `Except.error` is a run-time panic; `Except.ok` carries the
returned package and the returned `error`.  The expression
`hashChain[len(hashChain)-1].Hash` panics when the chain is empty. -/
def GetEvidencePackage {E : Type} (env : PackageEnv) (s : InMemoryStorage E)
    (orderID : String) : Except String (EvidencePackage × Option String) :=
  let validations := (s.validations.values.filter (fun v => v.OrderID == orderID)).map
    (fun v => ManualEntryValidation.mk v.EventID v.UserID v.OrderID v.MaterialsCost v.LaborCost
      v.Currency (env.statusValue v.Status) ⟨0x3FF0000000000000⟩ v.AuditRequired
      v.Timestamp.FormatRFC3339)
  let accessChecks := (s.accessChecks.values.filter (fun a => a.OrderID == orderID)).map
    (fun a => AccessCheck.mk a.ID a.UserID a.OrderID a.AccessGranted a.Timestamp.FormatRFC3339
      a.Reason)
  let geofenceChecks := (s.geofenceChecks.values.filter (fun g => g.OrderID == orderID)).map
    (fun g => GeofenceCheck.mk g.ID g.UserID g.OrderID g.IsInside g.Latitude g.Longitude
      g.Timestamp.FormatRFC3339 g.ViolationReason)
  let events := validations.map
    (fun v => ComplianceEvent.mk v.Id "MANUAL_COST_VALIDATION" v.CreatedAt v.UserId
      [("status", env.statusString v.RiskVerdict), ("order_id", v.OrderId)])
  let hashChain := createHashChain s orderID
  let merkleRoot := calculateMerkleRoot hashChain
  match hashChain.getLast? with
  | none => Except.error "runtime error: index out of range [-1]"
  | some last =>
    Except.ok
      (⟨orderID, env.now, events, validations, accessChecks, geofenceChecks, hashChain,
        last.Hash, merkleRoot, signEvidencePackage orderID merkleRoot⟩, none)

/-! ## Sequences of calls -/

/-- One call of `StoreValidation`, `StoreAppeal`, `StoreAccessCheck` or
`StoreGeofenceCheck`, with the record it is given. -/
inductive StoreCall (E : Type) where
  | validation (record : ValidationRecord)
  | appeal (record : AppealRecord E)
  | accessCheck (record : AccessCheckRecord)
  | geofenceCheck (record : GeofenceCheckRecord)

/-- The `UserID` of the record of a call. -/
def StoreCall.userID {E : Type} : StoreCall E → String
  | .validation r => r.UserID
  | .appeal r => r.UserID
  | .accessCheck r => r.UserID
  | .geofenceCheck r => r.UserID

/-- The storage after one call. -/
def applyCall {E : Type} (marshal : List E → String) (s : InMemoryStorage E) :
    StoreCall E → InMemoryStorage E
  | .validation r => (StoreValidation s r).1
  | .appeal r => (StoreAppeal marshal s r).1
  | .accessCheck r => (StoreAccessCheck s r).1
  | .geofenceCheck r => (StoreGeofenceCheck s r).1

/-- The storage after a sequence of calls, one after the other. -/
def runCalls {E : Type} (marshal : List E → String) (s : InMemoryStorage E)
    (calls : List (StoreCall E)) : InMemoryStorage E :=
  calls.foldl (applyCall marshal) s

/-- The record as `StoreValidation` stores it: `Hash` and `PreviousHash` filled in.  The
previous hash does not depend on the storage (see `getPreviousHash`). -/
def storedValidation (record : ValidationRecord) : ValidationRecord :=
  { record with Hash := calculateHash record, PreviousHash := "" }

/-- The record as `StoreAppeal` stores it. -/
def storedAppeal {E : Type} (marshal : List E → String) (record : AppealRecord E) :
    AppealRecord E :=
  { record with Hash := calculateAppealHash marshal record, PreviousHash := "" }

/-- The record as `StoreAccessCheck` stores it. -/
def storedAccessCheck (record : AccessCheckRecord) : AccessCheckRecord :=
  { record with Hash := calculateAccessCheckHash record, PreviousHash := "" }

/-- The record as `StoreGeofenceCheck` stores it. -/
def storedGeofenceCheck (record : GeofenceCheckRecord) : GeofenceCheckRecord :=
  { record with Hash := calculateGeofenceCheckHash record, PreviousHash := "" }

/-- The list form of the inner loop of the sort at position `i`: `x` is `records[i]`, the
list is `records[j:]`; the result is the final `records[i]` and the final `records[j:]`. -/
def exchangePass (x : ChainRecord) : List ChainRecord → ChainRecord × List ChainRecord
  | [] => (x, [])
  | y :: ys =>
    if x.timestamp.After y.timestamp then
      ((exchangePass y ys).1, x :: (exchangePass y ys).2)
    else
      ((exchangePass x ys).1, y :: (exchangePass x ys).2)

/-- The list form of the outer loop of the sort with `n` iterations left, on `records[i:]`. -/
def exchangeSort : Nat → List ChainRecord → List ChainRecord
  | 0, l => l
  | _ + 1, [] => []
  | n + 1, x :: rest => (exchangePass x rest).1 :: exchangeSort n (exchangePass x rest).2

/-- The order of instants: `a` is not after `b`. -/
def Time.le (a b : Time) : Prop := a.After b = false

/-- Two times are the same instant (their locations may differ). -/
def Time.sameInstant (a b : Time) : Prop := a.sec = b.sec ∧ a.nsec = b.nsec

instance (a b : Time) : Decidable (a.sameInstant b) :=
  inferInstanceAs (Decidable (a.sec = b.sec ∧ a.nsec = b.nsec))

/-- The records that the calls of `StoreValidation` in a sequence of calls are given for
the user `u`, in the order of the calls. -/
def validationsOf {E : Type} (u : String) (calls : List (StoreCall E)) :
    List ValidationRecord :=
  calls.filterMap (fun c =>
    match c with
    | .validation r => if r.UserID = u then some r else none
    | _ => none)

/-- The records that the calls of `StoreAppeal` in a sequence of calls are given for the
user `u`, in the order of the calls. -/
def appealsOf {E : Type} (u : String) (calls : List (StoreCall E)) : List (AppealRecord E) :=
  calls.filterMap (fun c =>
    match c with
    | .appeal r => if r.UserID = u then some r else none
    | _ => none)

/-- The records that the calls of `StoreAccessCheck` in a sequence of calls are given for
the user `u`, in the order of the calls. -/
def accessChecksOf {E : Type} (u : String) (calls : List (StoreCall E)) :
    List AccessCheckRecord :=
  calls.filterMap (fun c =>
    match c with
    | .accessCheck r => if r.UserID = u then some r else none
    | _ => none)

/-- The records that the calls of `StoreGeofenceCheck` in a sequence of calls are given for
the user `u`, in the order of the calls. -/
def geofenceChecksOf {E : Type} (u : String) (calls : List (StoreCall E)) :
    List GeofenceCheckRecord :=
  calls.filterMap (fun c =>
    match c with
    | .geofenceCheck r => if r.UserID = u then some r else none
    | _ => none)

/-! ## Definitions for the statements about the Merkle root and the hashes -/

/-- The variable `allHashes` of `calculateMerkleRoot` after its loop: the node hashes joined
in chain order. -/
def allHashes (hashChain : List HashChainNode) : String :=
  hashChain.foldl (fun acc node => acc ++ node.Hash) ""

/-- One level of the binary Merkle tree in the words of the specification (section 4.4,
step 4): adjacent hashes are paired and each pair is hashed as `SHA-256(left ++ right)`;
the last hash of a level with an odd count is paired with itself. -/
def specMerkleLevel : List String → List String
  | [] => []
  | [last] => [sha256Hex (last ++ last)]
  | left :: right :: rest => sha256Hex (left ++ right) :: specMerkleLevel rest

/-- The Merkle root in the words of the specification (section 4.4, step 4), over the leaf
hashes in chain order: levels are built until one hash remains, which is the root; for zero
leaves the root is `SHA-256("")`.  The first argument bounds the number of levels. -/
def specMerkleRootAux : Nat → List String → String
  | _, [] => sha256Hex ""
  | _, [root] => root
  | 0, first :: _ => first
  | n + 1, level => specMerkleRootAux n (specMerkleLevel level)

/-- The Merkle root in the words of the specification; a level of `k` hashes gives a level
of at most `(k + 1) / 2`, so `k` levels are enough. -/
def specMerkleRoot (leaves : List String) : String :=
  specMerkleRootAux leaves.length leaves

/-- A lower-case hexadecimal digit: `0` to `9` or `a` to `f`. -/
def isLowerHexDigit (c : Char) : Bool :=
  (decide ('0' ≤ c) && decide (c ≤ '9')) || (decide ('a' ≤ c) && decide (c ≤ 'f'))

/-- The UTF-8 encoding of a code point `v`, byte by byte as numbers. -/
def utf8Nat (v : Nat) : List Nat :=
  if v ≤ 127 then [v % 256]
  else if v ≤ 2047 then [v / 64 % 32 + 192, v % 64 + 128]
  else if v ≤ 65535 then [v / 4096 % 16 + 224, v / 64 % 64 + 128, v % 64 + 128]
  else [v / 262144 % 8 + 240, v / 4096 % 64 + 128, v / 64 % 64 + 128, v % 64 + 128]

/-! ## Sample records -/

/-- A stand-in for `json.Marshal` on evidence items of type `Unit`. -/
def marshalUnit : List Unit → String :=
  fun items => "[" ++ String.mk (items.map (fun _ => '0')) ++ "]"

/-- A validation record `A` of user `U1` for order `O1`: costs 600 and 500, timestamp
2023-11-14T22:13:20Z. -/
def recA : ValidationRecord :=
  { EventID := "A", UserID := "U1", OrderID := "O1",
    MaterialsCost := ⟨0x4082C00000000000⟩, LaborCost := ⟨0x407F400000000000⟩,
    Currency := "USD", Status := "VALIDATION_STATUS_APPROVED",
    Deviation := ⟨0x3FB999999999999A⟩, MedianPrice := ⟨0x408F400000000000⟩,
    SuggestedMedian := ⟨0x408F400000000000⟩, AuditRequired := false,
    Reason := "Price within acceptable range", Timestamp := ⟨1700000000, 0, 0⟩,
    Hash := "", PreviousHash := "" }

/-- A second validation record with the `EventID` of `recA` and other costs. -/
def recA2 : ValidationRecord :=
  { recA with MaterialsCost := ⟨0x408F400000000000⟩, Deviation := ⟨0x3FE0000000000000⟩,
              Status := "VALIDATION_STATUS_REJECTED", Timestamp := ⟨1700000100, 0, 0⟩ }

/-- An access check record `B` of user `U1` for order `O2`, one second after `recA`. -/
def recB : AccessCheckRecord :=
  { ID := "B", UserID := "U1", OrderID := "O2", AccessGranted := true,
    Timestamp := ⟨1700000001, 0, 0⟩, Reason := "ok", RequiresBiometrics := false,
    Hash := "", PreviousHash := "" }

/-- An access check record `C` of user `U1` for order `O2`, two seconds after `recA`. -/
def recC : AccessCheckRecord :=
  { recB with ID := "C", Timestamp := ⟨1700000002, 0, 0⟩ }

/-- An access check record `D` of user `U2` for order `O1`, one second after `recA`. -/
def recD : AccessCheckRecord :=
  { recB with ID := "D", UserID := "U2", OrderID := "O1" }

/-- A validation record `E` of user `U2` for order `O1` with the timestamp of `recA`. -/
def recE : ValidationRecord :=
  { recA with EventID := "E", UserID := "U2" }

/-- A validation record `F` of user `U1` for order `O1`, 100 seconds after `recA`. -/
def recF : ValidationRecord :=
  { recA with EventID := "F", Timestamp := ⟨1700000100, 0, 0⟩ }

/-- An access check record with id `check1` of user `0user`. -/
def recG1 : AccessCheckRecord :=
  { recB with ID := "check1", UserID := "0user" }

/-- An access check record with id `check10` of user `user`, otherwise as `recG1`. -/
def recG2 : AccessCheckRecord :=
  { recB with ID := "check10", UserID := "user" }

/-- A stand-in for the generated `proto` package and the clock. -/
def sampleEnv : PackageEnv :=
  ⟨fun _ => 0, fun _ => "VALIDATION_STATUS_UNSPECIFIED", ⟨1700000500, 0, 0⟩⟩

/-- The validations `A` and `E`, which have the same timestamp and order, stored in this
order on an empty storage. -/
def storageAE : InMemoryStorage Unit :=
  runCalls marshalUnit NewInMemoryStorage [StoreCall.validation recA, StoreCall.validation recE]

/-- The storage `storageAE` with the two entries of its map of validations enumerated in
the other order. -/
def storageEA : InMemoryStorage Unit :=
  { storageAE with validations := ⟨storageAE.validations.entries.reverse⟩ }

/-- The validations `A` and `F`, of one order and with different timestamps, stored in
this order on an empty storage. -/
def storageAF : InMemoryStorage Unit :=
  runCalls marshalUnit NewInMemoryStorage [StoreCall.validation recA, StoreCall.validation recF]

/-- The storage `storageAF` with the two entries of its map of validations enumerated in
the other order. -/
def storageFA : InMemoryStorage Unit :=
  { storageAF with validations := ⟨storageAF.validations.entries.reverse⟩ }

/-- The record `recA` with its timestamp as the same instant in the zone `+03:00`. -/
def recAz : ValidationRecord :=
  { recA with Timestamp := ⟨1700000000, 0, 10800⟩ }

/-- The scenario of the specification: the validation `A` (user `U1`, order `O1`) and the
access check `B` (user `U1`, order `O2`) stored on an empty storage. -/
def storageAB : InMemoryStorage Unit :=
  runCalls marshalUnit NewInMemoryStorage [StoreCall.validation recA, StoreCall.accessCheck recB]

/-- The validation `A`, the access check `D` and the validation `F`, all of order `O1`,
stored on an empty storage. -/
def storageADF : InMemoryStorage Unit :=
  runCalls marshalUnit NewInMemoryStorage
    [StoreCall.validation recA, StoreCall.accessCheck recD, StoreCall.validation recF]

/-! ## Go library: arithmetic and comparison of `float64` (IEEE 754 binary64) -/

/-- The sign bit of a `float64`. -/
def Float64.signBit (x : Float64) : Bool := decide (x.bits % 2 ^ 64 / 2 ^ 63 = 1)

/-- The biased exponent field of a `float64`, 11 bits. -/
def Float64.expField (x : Float64) : Nat := x.bits / 2 ^ 52 % 2048

/-- The fraction field of a `float64`, 52 bits. -/
def Float64.frac (x : Float64) : Nat := x.bits % 2 ^ 52

/-- The value is not a number. -/
def Float64.isNaN (x : Float64) : Bool := decide (x.expField = 2047) && decide (x.frac ≠ 0)

/-- The value is plus or minus infinity. -/
def Float64.isInf (x : Float64) : Bool := decide (x.expField = 2047) && decide (x.frac = 0)

/-- The magnitude of a finite `float64` as a multiple of `2 ^ (-1074)`, the spacing of the
subnormal numbers: every finite `float64` is such a multiple. -/
def Float64.scaled (x : Float64) : Nat :=
  (if x.expField = 0 then x.frac else x.frac + 2 ^ 52) * 2 ^ (max x.expField 1 - 1)

/-- The value of a `float64` that is not NaN as a signed multiple of `2 ^ (-1074)`; the
infinities stand at `2 ^ 2100` and `-(2 ^ 2100)`, beyond every finite value.  Both zeros
have the same value. -/
def Float64.key (x : Float64) : Int :=
  let m : Nat := if x.expField = 2047 then 2 ^ 2100 else x.scaled
  if x.signBit then -(m : Int) else (m : Int)

/-- Go `x < y` on `float64`: false when either is NaN. -/
def Float64.lt (x y : Float64) : Bool := !x.isNaN && !y.isNaN && decide (x.key < y.key)

/-- Go `x <= y` on `float64`: false when either is NaN. -/
def Float64.le (x y : Float64) : Bool := !x.isNaN && !y.isNaN && decide (x.key ≤ y.key)

/-- Go `x > y` on `float64`. -/
def Float64.gt (x y : Float64) : Bool := Float64.lt y x

/-- A NaN, as `math.NaN()` gives it; which NaN an operation returns depends on the
processor, and every function here handles all NaNs alike. -/
def Float64.nan : Float64 := ⟨(2047 * 2 + 1) * 2 ^ 51 + 1⟩

/-- Plus or minus infinity. -/
def Float64.inf (neg : Bool) : Float64 := ⟨(if neg then 2 ^ 63 else 0) + 2047 * 2 ^ 52⟩

/-- Plus or minus zero. -/
def Float64.zero (neg : Bool) : Float64 := ⟨if neg then 2 ^ 63 else 0⟩

/-- The number of binary digits of `n` less one (0 for 0); the first argument bounds the
number of halvings. -/
def log2Nat : Nat → Nat → Nat
  | 0, _ => 0
  | fuel + 1, n => if n < 2 then 0 else log2Nat fuel (n / 2) + 1

/-- The quotient `num / den` rounded to the nearest integer, ties to the even one. -/
def roundHalfEven (num den : Nat) : Nat :=
  let q := num / den
  let r := num % den
  if den < 2 * r ∨ (2 * r = den ∧ q % 2 = 1) then q + 1 else q

/-- The `float64` nearest to the magnitude `num / den`, given in multiples of
`2 ^ (-1074)`, with the sign `neg`: rounded to 53 significant bits (fewer for subnormal
numbers), ties to even, and infinity when the result is beyond the largest finite number.
With `k` binary digits dropped the bits are `k * 2 ^ 52` plus the rounded significand. -/
def Float64.ofScaled (neg : Bool) (num den : Nat) : Float64 :=
  let k := log2Nat (num / den) (num / den) - 52
  let mag := min (k * 2 ^ 52 + roundHalfEven num (den * 2 ^ k)) (2047 * 2 ^ 52)
  ⟨(if neg then 2 ^ 63 else 0) + mag⟩

/-- Go `-x` on `float64`: the sign bit is flipped. -/
def Float64.neg (x : Float64) : Float64 := ⟨(x.bits + 2 ^ 63) % 2 ^ 64⟩

/-- Go `x + y` on `float64`: the exact sum rounded to nearest, ties to even. -/
def Float64.add (x y : Float64) : Float64 :=
  if x.isNaN || y.isNaN then Float64.nan
  else if x.isInf then
    if y.isInf && (x.signBit != y.signBit) then Float64.nan else Float64.inf x.signBit
  else if y.isInf then Float64.inf y.signBit
  else
    let n : Int := x.key + y.key
    if n = 0 then Float64.zero (x.signBit && y.signBit)
    else Float64.ofScaled (decide (n < 0)) n.natAbs 1

/-- Go `x - y` on `float64`. -/
def Float64.sub (x y : Float64) : Float64 := Float64.add x y.neg

/-- Go `x * y` on `float64`: the exact product rounded to nearest, ties to even. -/
def Float64.mul (x y : Float64) : Float64 :=
  let neg := x.signBit != y.signBit
  if x.isNaN || y.isNaN then Float64.nan
  else if x.isInf then
    if !y.isInf && y.scaled = 0 then Float64.nan else Float64.inf neg
  else if y.isInf then
    if x.scaled = 0 then Float64.nan else Float64.inf neg
  else Float64.ofScaled neg (x.scaled * y.scaled) (2 ^ 1074)

/-- Go `x / y` on `float64`: the exact quotient rounded to nearest, ties to even. -/
def Float64.div (x y : Float64) : Float64 :=
  let neg := x.signBit != y.signBit
  if x.isNaN || y.isNaN then Float64.nan
  else if x.isInf then
    if y.isInf then Float64.nan else Float64.inf neg
  else if y.isInf then Float64.zero neg
  else if y.scaled = 0 then
    if x.scaled = 0 then Float64.nan else Float64.inf neg
  else Float64.ofScaled neg (x.scaled * 2 ^ 1074) y.scaled

/-- Go `float64(n)` for an integer `n`. -/
def Float64.ofInt (n : Int) : Float64 :=
  Float64.ofScaled (decide (n < 0)) (n.natAbs * 2 ^ 1074) 1

/-- The `float64` of a decimal constant `num / den` of the source, such as `0.20`: the
nearest `float64`. -/
def Float64.ofRatio (num den : Nat) : Float64 :=
  Float64.ofScaled false (num * 2 ^ 1074) den

/-! ## Go library: instants and durations for the trust score -/

/-- Go `t.UTC()`: the same instant with the location UTC. -/
def Time.UTC (t : Time) : Time := { t with offset := 0 }

/-- The zero value of `time.Time`: January 1, year 1, 00:00:00 UTC. -/
def Time.zeroValue : Time := ⟨-62135596800, 0, 0⟩

/-- Go `t.IsZero()`: the instant is that of the zero value. -/
def Time.IsZero (t : Time) : Bool := decide (t.sec = -62135596800) && decide (t.nsec = 0)

/-- Go `t.Before(u)`: the instant `t` is before the instant `u`. -/
def Time.Before (t u : Time) : Bool :=
  decide (t.sec < u.sec) || (decide (t.sec = u.sec) && decide (t.nsec < u.nsec))

/-- Go `t.Sub(u)` for times without monotonic clock reading: the duration `t - u` in
nanoseconds, or the largest or smallest `int64` when the difference is out of its range. -/
def Time.Sub (t u : Time) : Int :=
  let d : Int := (t.sec - u.sec) * 1000000000 + ((t.nsec : Int) - (u.nsec : Int))
  if d < -(2 ^ 63) then -(2 ^ 63) else if 2 ^ 63 - 1 < d then 2 ^ 63 - 1 else d

/-- Go `d.Hours()` of a `time.Duration` `d`:
`float64(d / Hour) + float64(d % Hour) / (60 * 60 * 1e9)`, with the truncated division and
remainder of Go integers. -/
def durationHours (d : Int) : Float64 :=
  (Float64.ofInt (Int.tdiv d 3600000000000)).add
    ((Float64.ofInt (Int.tmod d 3600000000000)).div (Float64.ofRatio 3600000000000 1))

/-- Go `timestamppb.Timestamp`: seconds and nanoseconds since the Unix epoch. -/
structure Timestamp where
  Seconds : Int
  Nanos : Int
deriving DecidableEq

/-- Go `x.AsTime()` on a `*timestamppb.Timestamp`: `time.Unix(seconds, nanos).UTC()`, where
nanoseconds outside `[0, 1e9)` carry into the seconds; a `nil` timestamp has seconds and
nanoseconds 0. -/
def Timestamp.AsTime : Option Timestamp → Time
  | none => ⟨0, 0, 0⟩
  | some x => ⟨x.Seconds + x.Nanos / 1000000000, (x.Nanos % 1000000000).toNat, 0⟩

/-! ## Market oracle (`market_oracle.go`, lines 16-150) -/

/-- Go constant `AuditRequiredThreshold = 0.20`, as the `float64` it is compared with. -/
def AuditRequiredThreshold : Float64 := Float64.ofRatio 20 100

/-- Go constant `RejectThreshold = 0.40`, as the `float64` it is compared with. -/
def RejectThreshold : Float64 := Float64.ofRatio 40 100

/-- Go `proto.ValidationStatus`: the three constants that the source names (in Go with the
prefix `ValidationStatus_`), taken to be different values as the constants of a generated
enumeration are, and any other value of the type. -/
inductive ValidationStatus where
  | VALIDATION_STATUS_REJECTED
  | VALIDATION_STATUS_AUDIT_REQUIRED
  | VALIDATION_STATUS_APPROVED
  | other (code : Int)
deriving DecidableEq

/-- Go `proto.TrustLevel`: the four constants that the source names (in Go with the prefix
`TrustLevel_`), taken to be different values, and any other value of the type. -/
inductive TrustLevel where
  | TRUST_LEVEL_CRITICAL
  | TRUST_LEVEL_LOW
  | TRUST_LEVEL_MEDIUM
  | TRUST_LEVEL_HIGH
  | other (code : Int)
deriving DecidableEq

/-- What the generated `proto` package and the clock give to the market oracle and the
trust score calculator: `validationStatusString` is `proto.ValidationStatus.String`,
`appealStatusApproved` is `proto.AppealStatus_APPEAL_STATUS_APPROVED.String()`, and
`now` is `time.Now()`. -/
structure OracleEnv where
  validationStatusString : ValidationStatus → String
  appealStatusApproved : String
  now : Time

/-- Go `proto.ManualCostEntryRequest`, with the fields that `ValidateManualCostEntry`
reads. -/
structure ManualCostEntryRequest where
  EventId : String
  UserId : String
  OrderId : String
  MaterialsCost : Float64
  LaborCost : Float64
  Currency : String
  Timestamp : Option Timestamp
deriving DecidableEq

/-- Go `proto.ManualCostEntryResponse`, with the fields that `ValidateManualCostEntry`
fills. -/
structure ManualCostEntryResponse where
  EventId : String
  Status : ValidationStatus
  Deviation : Float64
  MedianPrice : Float64
  SuggestedMedian : Float64
  AuditRequired : Bool
  Reason : String
  ValidatedAt : String
deriving DecidableEq

/-- Go `getMarketMedian`: the mock median `1000.0` and no error. -/
def getMarketMedian (_orderID _currency : String) : Float64 × Option String :=
  (Float64.ofRatio 1000 1, none)

/-- Go `calculateDeviation`: `1.0` when `median <= 0`, and otherwise
`(actual - median) / median`. -/
def calculateDeviation (median actual : Float64) : Float64 :=
  if median.le (Float64.ofRatio 0 1) then Float64.ofRatio 1 1
  else (actual.sub median).div median

/-- The three variables `status`, `auditRequired` and `reason` of `ValidateManualCostEntry`
after the `if` chain on the deviation (lines 49-68). -/
def validationVerdict (deviation : Float64) : ValidationStatus × Bool × String :=
  if deviation.gt RejectThreshold then
    (ValidationStatus.VALIDATION_STATUS_REJECTED, false, "Significant price deviation > 40%")
  else if deviation.gt AuditRequiredThreshold then
    (ValidationStatus.VALIDATION_STATUS_AUDIT_REQUIRED, true,
      "Price deviation > 20%, requires audit")
  else
    (ValidationStatus.VALIDATION_STATUS_APPROVED, false, "Price within acceptable range")

/-- The record `validationRecord` that `ValidateManualCostEntry` builds and passes to
`StoreValidation` (lines 70-85). -/
def validationRecordOf (env : OracleEnv) (req : ManualCostEntryRequest)
    (medianPrice deviation : Float64) : ValidationRecord :=
  { EventID := req.EventId
    UserID := req.UserId
    OrderID := req.OrderId
    MaterialsCost := req.MaterialsCost
    LaborCost := req.LaborCost
    Currency := req.Currency
    Status := env.validationStatusString (validationVerdict deviation).1
    Deviation := deviation
    MedianPrice := medianPrice
    SuggestedMedian := medianPrice
    AuditRequired := (validationVerdict deviation).2.1
    Reason := (validationVerdict deviation).2.2
    Timestamp := Timestamp.AsTime req.Timestamp
    Hash := ""
    PreviousHash := "" }

/-- Go `ValidateManualCostEntry` on the in-memory storage: the storage after the call, the
response (`none` is `nil`) and the error; an error is the text of a status error with code
`Internal`. -/
def ValidateManualCostEntry {E : Type} (env : OracleEnv) (s : InMemoryStorage E)
    (req : ManualCostEntryRequest) :
    InMemoryStorage E × Option ManualCostEntryResponse × Option String :=
  let totalInput := req.MaterialsCost.add req.LaborCost
  match getMarketMedian req.OrderId req.Currency with
  | (_, some err) => (s, none, some ("failed to get market median: " ++ err))
  | (medianPrice, none) =>
    let deviation := calculateDeviation medianPrice totalInput
    let verdict := validationVerdict deviation
    let validationRecord := validationRecordOf env req medianPrice deviation
    match StoreValidation s validationRecord with
    | (s1, some err) => (s1, none, some ("failed to store validation: " ++ err))
    | (s1, none) =>
      (s1,
        some
          { EventId := req.EventId
            Status := verdict.1
            Deviation := deviation
            MedianPrice := medianPrice
            SuggestedMedian := medianPrice
            AuditRequired := verdict.2.1
            Reason := verdict.2.2
            ValidatedAt := env.now.UTC.FormatRFC3339 },
        none)

/-! ## Trust score (`market_oracle.go`, lines 158-358) -/

/-- Go `calculatePriceAccuracyScore`. -/
def calculatePriceAccuracyScore {E : Type} (env : OracleEnv) (history : UserHistory E) :
    Float64 :=
  if history.Validations.length = 0 then Float64.ofRatio 50 1
  else
    let accurateValidations : Int := history.Validations.foldl
      (fun n validation =>
        if validation.Status =
            env.validationStatusString ValidationStatus.VALIDATION_STATUS_APPROVED
        then n + 1 else n) 0
    let accuracyRate :=
      (Float64.ofInt accurateValidations).div (Float64.ofInt history.Validations.length)
    accuracyRate.mul (Float64.ofRatio 100 1)

/-- Go `calculateAppealSuccessScore`. -/
def calculateAppealSuccessScore {E : Type} (env : OracleEnv) (history : UserHistory E) :
    Float64 :=
  if history.Appeals.length = 0 then Float64.ofRatio 50 1
  else
    let successfulAppeals : Int := history.Appeals.foldl
      (fun n appeal => if appeal.Status = env.appealStatusApproved then n + 1 else n) 0
    let successRate :=
      (Float64.ofInt successfulAppeals).div (Float64.ofInt history.Appeals.length)
    successRate.mul (Float64.ofRatio 100 1)

/-- Go `calculateBiometricsComplianceScore`. -/
def calculateBiometricsComplianceScore {E : Type} (history : UserHistory E) : Float64 :=
  if history.AccessChecks.length = 0 then Float64.ofRatio 50 1
  else
    let counts : Int × Int := history.AccessChecks.foldl
      (fun (n : Int × Int) check =>
        if check.RequiresBiometrics then
          (if check.AccessGranted then n.1 + 1 else n.1, n.2 + 1)
        else n) (0, 0)
    let compliantChecks := counts.1
    let totalBiometricChecks := counts.2
    if totalBiometricChecks = 0 then Float64.ofRatio 50 1
    else
      let complianceRate :=
        (Float64.ofInt compliantChecks).div (Float64.ofInt totalBiometricChecks)
      complianceRate.mul (Float64.ofRatio 100 1)

/-- Go `calculateGeographicComplianceScore`. -/
def calculateGeographicComplianceScore {E : Type} (history : UserHistory E) : Float64 :=
  if history.GeofenceChecks.length = 0 then Float64.ofRatio 50 1
  else
    let compliantChecks : Int := history.GeofenceChecks.foldl
      (fun n check =>
        if check.IsInside && decide (check.ViolationReason = "") then n + 1 else n) 0
    let complianceRate :=
      (Float64.ofInt compliantChecks).div (Float64.ofInt history.GeofenceChecks.length)
    complianceRate.mul (Float64.ofRatio 100 1)

/-- One step of the three loops of `calculateTimeFactorScore` that look for the oldest
event: `if oldestTime.IsZero() || t.Before(oldestTime) { oldestTime = t }`. -/
def olderOf (oldestTime t : Time) : Time :=
  if oldestTime.IsZero || t.Before oldestTime then t else oldestTime

/-- Go `calculateTimeFactorScore`. -/
def calculateTimeFactorScore {E : Type} (env : OracleEnv) (history : UserHistory E) :
    Float64 :=
  if history.Validations.length = 0 && history.AccessChecks.length = 0 &&
      history.GeofenceChecks.length = 0 then Float64.ofRatio 0 1
  else
    let oldestTime := history.Validations.foldl (fun o v => olderOf o v.Timestamp) Time.zeroValue
    let oldestTime := history.AccessChecks.foldl (fun o c => olderOf o c.Timestamp) oldestTime
    let oldestTime := history.GeofenceChecks.foldl (fun o c => olderOf o c.Timestamp) oldestTime
    if oldestTime.IsZero then Float64.ofRatio 0 1
    else
      let now := env.now.UTC
      let daysActive := (durationHours (now.Sub oldestTime)).div (Float64.ofRatio 24 1)
      let timeScore := daysActive.div (Float64.ofRatio 30 1)
      if timeScore.gt (Float64.ofRatio 50 1) then Float64.ofRatio 50 1 else timeScore

/-- Go `getTrustLevel`: the `switch` on the score. -/
def getTrustLevel (score : Float64) : TrustLevel :=
  if score.lt (Float64.ofRatio 25 1) then TrustLevel.TRUST_LEVEL_CRITICAL
  else if score.lt (Float64.ofRatio 50 1) then TrustLevel.TRUST_LEVEL_LOW
  else if score.lt (Float64.ofRatio 75 1) then TrustLevel.TRUST_LEVEL_MEDIUM
  else TrustLevel.TRUST_LEVEL_HIGH

/-- Go `getRestrictedActions`: the `switch` on the level. -/
def getRestrictedActions : TrustLevel → List String
  | TrustLevel.TRUST_LEVEL_CRITICAL =>
    ["place_bid", "view_itar_cargo", "access_sensitive_data", "modify_order"]
  | TrustLevel.TRUST_LEVEL_LOW => ["view_itar_cargo", "access_sensitive_data"]
  | TrustLevel.TRUST_LEVEL_MEDIUM => ["access_sensitive_data"]
  | _ => []

/-- Go `proto.SecurityRequirements`, with the fields that `CalculateTrustScore` fills. -/
structure SecurityRequirements where
  RequiresBiometrics : Bool
  RequiresAppeal : Bool
  RequiresManualReview : Bool
  RestrictedActions : List String
deriving DecidableEq

/-- Go `proto.TrustScoreResponse`, with the fields that `CalculateTrustScore` fills. -/
structure TrustScoreResponse where
  UserId : String
  TrustScore : Float64
  TrustLevel : TrustLevel
  LastUpdated : String
  SecurityRequirements : SecurityRequirements
deriving DecidableEq

/-- The weighted average `trustScore` of `CalculateTrustScore` (lines 178-192), each product
and each sum rounded on its own, from left to right. -/
def weightedTrustScore {E : Type} (env : OracleEnv) (history : UserHistory E) : Float64 :=
  let priceAccuracyScore := calculatePriceAccuracyScore env history
  let appealSuccessScore := calculateAppealSuccessScore env history
  let biometricsComplianceScore := calculateBiometricsComplianceScore history
  let geographicComplianceScore := calculateGeographicComplianceScore history
  let timeFactorScore := calculateTimeFactorScore env history
  ((((priceAccuracyScore.mul (Float64.ofRatio 30 100)).add
        (appealSuccessScore.mul (Float64.ofRatio 25 100))).add
        (biometricsComplianceScore.mul (Float64.ofRatio 20 100))).add
        (geographicComplianceScore.mul (Float64.ofRatio 15 100))).add
    (timeFactorScore.mul (Float64.ofRatio 10 100))

/-- Go `CalculateTrustScore` on the in-memory storage: the storage after the call, the
response (`none` is `nil`) and the error. -/
def CalculateTrustScore {E : Type} (env : OracleEnv) (s : InMemoryStorage E)
    (userID : String) : InMemoryStorage E × Option TrustScoreResponse × Option String :=
  match GetUserHistory s userID with
  | (s1, _, some err) => (s1, none, some ("failed to get user history: " ++ err))
  | (s1, history, none) =>
    let trustScore := weightedTrustScore env history
    let trustLevel := getTrustLevel trustScore
    let securityRequirements : SecurityRequirements :=
      { RequiresBiometrics := trustScore.lt (Float64.ofRatio 75 1)
        RequiresAppeal := trustScore.lt (Float64.ofRatio 50 1)
        RequiresManualReview := trustScore.lt (Float64.ofRatio 25 1)
        RestrictedActions := getRestrictedActions trustLevel }
    (s1,
      some
        { UserId := userID
          TrustScore := trustScore
          TrustLevel := trustLevel
          LastUpdated := env.now.UTC.FormatRFC3339
          SecurityRequirements := securityRequirements },
      none)

/-- The rank of the four trust levels from the lowest trust to the highest; the other
values of the type, which `getTrustLevel` does not return, rank with `HIGH`, as the
`default` branch of `getRestrictedActions` treats them. -/
def TrustLevel.rank : TrustLevel → Nat
  | TrustLevel.TRUST_LEVEL_CRITICAL => 0
  | TrustLevel.TRUST_LEVEL_LOW => 1
  | TrustLevel.TRUST_LEVEL_MEDIUM => 2
  | _ => 3

/-! ## Sample inputs of the market oracle -/

/-- A stand-in for the generated `proto` package and the clock: the names of the statuses
as a generated `String` method gives them, and the time 2024-02-12T22:21:40Z. -/
def sampleOracleEnv : OracleEnv :=
  { validationStatusString := fun status =>
      match status with
      | ValidationStatus.VALIDATION_STATUS_REJECTED => "VALIDATION_STATUS_REJECTED"
      | ValidationStatus.VALIDATION_STATUS_AUDIT_REQUIRED => "VALIDATION_STATUS_AUDIT_REQUIRED"
      | ValidationStatus.VALIDATION_STATUS_APPROVED => "VALIDATION_STATUS_APPROVED"
      | ValidationStatus.other _ => "VALIDATION_STATUS_UNSPECIFIED"
    appealStatusApproved := "APPEAL_STATUS_APPROVED"
    now := ⟨1707776500, 0, 0⟩ }

/-- A request with materials cost 600 and labor cost 300: the total 900 is below the
median 1000. -/
def sampleRequest : ManualCostEntryRequest :=
  { EventId := "E1", UserId := "U1", OrderId := "O1",
    MaterialsCost := Float64.ofInt 600, LaborCost := Float64.ofInt 300,
    Currency := "USD", Timestamp := some ⟨1700000000, 0⟩ }

/-! ## Lemmas on maps -/

theorem find_map_replace {V : Type} (l : List (String × V)) (k k2 : String) (v : V) :
    ((l.map (fun e => if e.1 == k then (k, v) else e)).find? (fun e => e.1 == k2)).map Prod.snd
      = if k2 = k then (if l.any (fun e => e.1 == k) then some v else none)
        else (l.find? (fun e => e.1 == k2)).map Prod.snd := by
  induction l with
  | nil => simp
  | cons e rest ih =>
    rw [List.map_cons, List.find?_cons, List.find?_cons, List.any_cons]
    by_cases hek : e.1 = k
    · by_cases hk : k2 = k
      · subst hk
        simp only [hek, beq_self_eq_true, if_true, Option.map_some', Bool.true_or]
      · have hk2 : ¬ k = k2 := fun h => hk h.symm
        have hb : (k == k2) = false := by simpa using hk2
        simp only [hek, beq_self_eq_true, if_true, hb]
        rw [ih]
        simp only [hk, if_false]
    · have hb : (e.1 == k) = false := by simpa using hek
      simp only [hb, Bool.false_or]
      by_cases he2 : e.1 = k2
      · have hk : ¬ k2 = k := fun h => hek (he2.trans h)
        simp only [he2, beq_self_eq_true, hk, if_false, Bool.false_eq_true, Option.map_some']
      · have hb2 : (e.1 == k2) = false := by simpa using he2
        simp only [hb2, Bool.false_eq_true, if_false]
        rw [ih]

theorem GoMap.get_set {V : Type} (m : GoMap V) (k k2 : String) (v : V) :
    (m.set k v).get k2 = if k2 = k then some v else m.get k2 := by
  unfold GoMap.set GoMap.get
  by_cases h : m.entries.any (fun e => e.1 == k) = true
  · simp only [h, if_true]
    rw [find_map_replace, h]
    simp only [if_true]
  · simp only [h]
    have hall : ∀ x ∈ m.entries, ¬ x.1 = k := by
      intro x hx hxk
      exact h (List.any_eq_true.mpr ⟨x, hx, by simp [hxk]⟩)
    by_cases hk : k2 = k
    · have hnone : m.entries.find? (fun e => e.1 == k) = none := by
        simp only [List.find?_eq_none]
        intro x hx
        simp [hall x hx]
      simp [hk, List.find?_append, hnone]
    · have hk2 : ¬ k = k2 := fun h => hk h.symm
      cases hf : m.entries.find? (fun e => e.1 == k2) <;>
        simp [hk, hk2, List.find?_append, hf, List.find?_cons]

theorem GoMap.get_empty {V : Type} (k : String) : (GoMap.empty : GoMap V).get k = none := rfl

/-! ## Lemmas on user histories -/

theorem GetUserHistory_storage {E : Type} (s : InMemoryStorage E) (u : String) :
    (GetUserHistory s u).1 = s := by
  unfold GetUserHistory
  cases s.userHistories.get u <;> rfl

theorem GetUserHistory_error {E : Type} (s : InMemoryStorage E) (u : String) :
    (GetUserHistory s u).2.2 = none := by
  unfold GetUserHistory
  cases s.userHistories.get u <;> rfl

theorem history_StoreValidation {E : Type} (s : InMemoryStorage E) (r : ValidationRecord)
    (u : String) :
    (GetUserHistory (StoreValidation s r).1 u).2.1 =
      if u = r.UserID then
        { (GetUserHistory s u).2.1 with
          Validations := (GetUserHistory s u).2.1.Validations ++ [storedValidation r] }
      else (GetUserHistory s u).2.1 := by
  unfold GetUserHistory StoreValidation updateUserHistory getPreviousHash storedValidation
  simp only [GoMap.get_set]
  by_cases h : u = r.UserID
  · subst h
    cases s.userHistories.get r.UserID <;> simp
  · simp only [h, if_false]
    cases s.userHistories.get u <;> rfl

theorem history_StoreAppeal {E : Type} (marshal : List E → String) (s : InMemoryStorage E)
    (r : AppealRecord E) (u : String) :
    (GetUserHistory (StoreAppeal marshal s r).1 u).2.1 =
      if u = r.UserID then
        { (GetUserHistory s u).2.1 with
          Appeals := (GetUserHistory s u).2.1.Appeals ++ [storedAppeal marshal r] }
      else (GetUserHistory s u).2.1 := by
  unfold GetUserHistory StoreAppeal updateUserHistory getPreviousHash storedAppeal
  simp only [GoMap.get_set]
  by_cases h : u = r.UserID
  · subst h
    cases s.userHistories.get r.UserID <;> simp
  · simp only [h, if_false]
    cases s.userHistories.get u <;> rfl

theorem history_StoreAccessCheck {E : Type} (s : InMemoryStorage E) (r : AccessCheckRecord)
    (u : String) :
    (GetUserHistory (StoreAccessCheck s r).1 u).2.1 =
      if u = r.UserID then
        { (GetUserHistory s u).2.1 with
          AccessChecks := (GetUserHistory s u).2.1.AccessChecks ++ [storedAccessCheck r] }
      else (GetUserHistory s u).2.1 := by
  unfold GetUserHistory StoreAccessCheck updateUserHistory getPreviousHash storedAccessCheck
  simp only [GoMap.get_set]
  by_cases h : u = r.UserID
  · subst h
    cases s.userHistories.get r.UserID <;> simp
  · simp only [h, if_false]
    cases s.userHistories.get u <;> rfl

theorem history_StoreGeofenceCheck {E : Type} (s : InMemoryStorage E)
    (r : GeofenceCheckRecord) (u : String) :
    (GetUserHistory (StoreGeofenceCheck s r).1 u).2.1 =
      if u = r.UserID then
        { (GetUserHistory s u).2.1 with
          GeofenceChecks :=
            (GetUserHistory s u).2.1.GeofenceChecks ++ [storedGeofenceCheck r] }
      else (GetUserHistory s u).2.1 := by
  unfold GetUserHistory StoreGeofenceCheck updateUserHistory getPreviousHash
    storedGeofenceCheck
  simp only [GoMap.get_set]
  by_cases h : u = r.UserID
  · subst h
    cases s.userHistories.get r.UserID <;> simp
  · simp only [h, if_false]
    cases s.userHistories.get u <;> rfl

/-- The history of a user after a sequence of calls: each sequence of the history before
the calls, followed by the records stored for the user, in the order of the calls. -/
theorem history_runCalls {E : Type} (marshal : List E → String) (calls : List (StoreCall E))
    (s : InMemoryStorage E) (u : String) :
    (GetUserHistory (runCalls marshal s calls) u).2.1 =
      { UserID := (GetUserHistory s u).2.1.UserID
        Validations := (GetUserHistory s u).2.1.Validations ++
          (validationsOf u calls).map storedValidation
        Appeals := (GetUserHistory s u).2.1.Appeals ++
          (appealsOf u calls).map (storedAppeal marshal)
        AccessChecks := (GetUserHistory s u).2.1.AccessChecks ++
          (accessChecksOf u calls).map storedAccessCheck
        GeofenceChecks := (GetUserHistory s u).2.1.GeofenceChecks ++
          (geofenceChecksOf u calls).map storedGeofenceCheck } := by
  induction calls generalizing s with
  | nil => simp [runCalls, validationsOf, appealsOf, accessChecksOf, geofenceChecksOf]
  | cons c rest ih =>
    have hstep : runCalls marshal s (c :: rest) = runCalls marshal (applyCall marshal s c) rest :=
      rfl
    rw [hstep, ih]
    cases c with
    | validation r =>
      simp only [applyCall, history_StoreValidation, validationsOf, appealsOf, accessChecksOf,
        geofenceChecksOf, List.filterMap_cons]
      by_cases h : u = r.UserID
      · simp [h]
      · have h2 : ¬ r.UserID = u := fun e => h e.symm
        simp [h, h2]
    | appeal r =>
      simp only [applyCall, history_StoreAppeal, validationsOf, appealsOf, accessChecksOf,
        geofenceChecksOf, List.filterMap_cons]
      by_cases h : u = r.UserID
      · simp [h]
      · have h2 : ¬ r.UserID = u := fun e => h e.symm
        simp [h, h2]
    | accessCheck r =>
      simp only [applyCall, history_StoreAccessCheck, validationsOf, appealsOf, accessChecksOf,
        geofenceChecksOf, List.filterMap_cons]
      by_cases h : u = r.UserID
      · simp [h]
      · have h2 : ¬ r.UserID = u := fun e => h e.symm
        simp [h, h2]
    | geofenceCheck r =>
      simp only [applyCall, history_StoreGeofenceCheck, validationsOf, appealsOf,
        accessChecksOf, geofenceChecksOf, List.filterMap_cons]
      by_cases h : u = r.UserID
      · simp [h]
      · have h2 : ¬ r.UserID = u := fun e => h e.symm
        simp [h, h2]

/-! ## Lemmas on the library functions -/

theorem beBytes_length (n x : Nat) : (beBytes n x).length = n := by
  induction n with
  | zero => rfl
  | succ n ih => simp [beBytes, ih]

theorem sha256_length (msg : List UInt8) : (sha256 msg).length = 32 := by
  simp [sha256, beBytes_length]

theorem hexEncodeToString_length (bs : List UInt8) :
    (hexEncodeToString bs).length = 2 * bs.length := by
  unfold hexEncodeToString
  induction bs with
  | nil => rfl
  | cons b rest ih =>
    simp only [String.length, List.flatMap_cons, List.length_append, List.length_cons,
      List.length_nil] at ih ⊢
    omega

theorem sha256Hex_length (data : String) : (sha256Hex data).length = 64 := by
  simp [sha256Hex, hexEncodeToString_length, sha256_length]

set_option maxRecDepth 100000 in
/-- The digest of the empty message (a test vector of FIPS 180-4). -/
theorem sha256Hex_empty :
    sha256Hex "" = "e3b0c44298fc1c149afbf4c8996fb92427ae41e4649b934ca495991b7852b855" := by
  decide

set_option maxRecDepth 100000 in
/-- The digest of the one-block message `abc` (a test vector of FIPS 180-4). -/
theorem sha256Hex_abc :
    sha256Hex "abc" = "ba7816bf8f01cfea414140de5dae2223b00361a396177a9cb410ff61f20015ad" := by
  decide

set_option maxRecDepth 100000 in
/-- The digest of a two-block message (a test vector of FIPS 180-4). -/
theorem sha256Hex_two_blocks :
    sha256Hex "abcdbcdecdefdefgefghfghighijhijkijkljklmklmnlmnomnopnopq" =
      "248d6a61d20638b8e5c026930c3e6039a33ce45964ff2167f6ecedd419db06c1" := by
  decide

theorem sha256Hex_ne_empty (data : String) : sha256Hex data ≠ "" := by
  intro h
  have := sha256Hex_length data
  rw [h] at this
  simp at this

/-! ## Storing records -/

theorem StoreValidation_get {E : Type} (s : InMemoryStorage E) (v : ValidationRecord) :
    (StoreValidation s v).1.validations.get v.EventID = some (storedValidation v) := by
  simp [StoreValidation, updateUserHistory, GoMap.get_set, storedValidation, getPreviousHash]

theorem StoreAppeal_get {E : Type} (marshal : List E → String) (s : InMemoryStorage E)
    (a : AppealRecord E) :
    (StoreAppeal marshal s a).1.appeals.get a.AppealID = some (storedAppeal marshal a) := by
  simp [StoreAppeal, updateUserHistory, GoMap.get_set, storedAppeal, getPreviousHash]

theorem StoreAccessCheck_get {E : Type} (s : InMemoryStorage E) (c : AccessCheckRecord) :
    (StoreAccessCheck s c).1.accessChecks.get c.ID = some (storedAccessCheck c) := by
  simp [StoreAccessCheck, updateUserHistory, GoMap.get_set, storedAccessCheck, getPreviousHash]

theorem StoreGeofenceCheck_get {E : Type} (s : InMemoryStorage E) (g : GeofenceCheckRecord) :
    (StoreGeofenceCheck s g).1.geofenceChecks.get g.ID = some (storedGeofenceCheck g) := by
  simp [StoreGeofenceCheck, updateUserHistory, GoMap.get_set, storedGeofenceCheck,
    getPreviousHash]

/-- Claim C1, evaluated on the scenario of the specification: after `StoreValidation` of
record `A` and `StoreAccessCheck` of record `B` for the same user `U1` on an empty storage,
the history of `U1` holds `A` and `B` as stored, the hash of `A` has 64 characters, the
`PreviousHash` of `B` is the empty string, and it is not the hash of `A`, the record stored
right before it. -/
theorem second_record_not_linked :
    (GetUserHistory (runCalls marshalUnit NewInMemoryStorage
        [StoreCall.validation recA, StoreCall.accessCheck recB]) "U1").2.1
      = ⟨"U1", [storedValidation recA], [], [storedAccessCheck recB], []⟩ ∧
    (storedValidation recA).Hash.length = 64 ∧
    (storedAccessCheck recB).PreviousHash = "" ∧
    (storedAccessCheck recB).PreviousHash ≠ (storedValidation recA).Hash := by
  refine ⟨?_, sha256Hex_length _, rfl, ?_⟩
  · rw [history_runCalls]
    rfl
  · intro h
    exact sha256Hex_ne_empty _ h.symm

/-- Claim C2: for every storage and every record of each of the four kinds, the `Store*`
call puts the record with `Hash` and `PreviousHash` filled in, and every other field as
given, into the map of the kind under the id of the record and at the end of the sequence
of the kind in the history of its user, and the hash function of the kind computed over
that stored record gives its stored `Hash`. -/
theorem stored_hash_recomputes {E : Type} (marshal : List E → String) (s : InMemoryStorage E)
    (v : ValidationRecord) (a : AppealRecord E) (c : AccessCheckRecord)
    (g : GeofenceCheckRecord) :
    ((StoreValidation s v).1.validations.get v.EventID = some (storedValidation v) ∧
      (GetUserHistory (StoreValidation s v).1 v.UserID).2.1.Validations.getLast? =
        some (storedValidation v) ∧
      storedValidation v = { v with Hash := calculateHash v, PreviousHash := "" } ∧
      calculateHash (storedValidation v) = (storedValidation v).Hash) ∧
    ((StoreAppeal marshal s a).1.appeals.get a.AppealID = some (storedAppeal marshal a) ∧
      (GetUserHistory (StoreAppeal marshal s a).1 a.UserID).2.1.Appeals.getLast? =
        some (storedAppeal marshal a) ∧
      storedAppeal marshal a =
        { a with Hash := calculateAppealHash marshal a, PreviousHash := "" } ∧
      calculateAppealHash marshal (storedAppeal marshal a) = (storedAppeal marshal a).Hash) ∧
    ((StoreAccessCheck s c).1.accessChecks.get c.ID = some (storedAccessCheck c) ∧
      (GetUserHistory (StoreAccessCheck s c).1 c.UserID).2.1.AccessChecks.getLast? =
        some (storedAccessCheck c) ∧
      storedAccessCheck c = { c with Hash := calculateAccessCheckHash c, PreviousHash := "" } ∧
      calculateAccessCheckHash (storedAccessCheck c) = (storedAccessCheck c).Hash) ∧
    ((StoreGeofenceCheck s g).1.geofenceChecks.get g.ID = some (storedGeofenceCheck g) ∧
      (GetUserHistory (StoreGeofenceCheck s g).1 g.UserID).2.1.GeofenceChecks.getLast? =
        some (storedGeofenceCheck g) ∧
      storedGeofenceCheck g =
        { g with Hash := calculateGeofenceCheckHash g, PreviousHash := "" } ∧
      calculateGeofenceCheckHash (storedGeofenceCheck g) = (storedGeofenceCheck g).Hash) := by
  refine ⟨⟨StoreValidation_get s v, ?_, rfl, rfl⟩, ⟨StoreAppeal_get marshal s a, ?_, rfl, rfl⟩,
    ⟨StoreAccessCheck_get s c, ?_, rfl, rfl⟩, ⟨StoreGeofenceCheck_get s g, ?_, rfl, rfl⟩⟩
  · rw [history_StoreValidation]
    simp
  · rw [history_StoreAppeal]
    simp
  · rw [history_StoreAccessCheck]
    simp
  · rw [history_StoreGeofenceCheck]
    simp

/-- Claim C4, evaluated for two calls: after `StoreAccessCheck` of the records `B` and `C`
for the same user `U1` on an empty storage, the history of `U1` holds both, they are
different records, and they have the same `PreviousHash`, the empty string. -/
theorem same_user_records_share_previous_hash :
    (GetUserHistory (runCalls marshalUnit NewInMemoryStorage
        [StoreCall.accessCheck recB, StoreCall.accessCheck recC]) "U1").2.1.AccessChecks
      = [storedAccessCheck recB, storedAccessCheck recC] ∧
    storedAccessCheck recB ≠ storedAccessCheck recC ∧
    (storedAccessCheck recB).PreviousHash = (storedAccessCheck recC).PreviousHash := by
  refine ⟨?_, ?_, rfl⟩
  · rw [history_runCalls]
    rfl
  · intro h
    have hid := congrArg AccessCheckRecord.ID h
    exact absurd hid (by decide)

/-- Claim C5, evaluated on a repeated id: `StoreValidation` of `recA` on an empty storage
puts the stored `recA` under the id `A`; `StoreValidation` of `recA2`, which has the same
`EventID`, then puts the stored `recA2` under `A`, a different record, and the stored
`recA` is no longer among the values of the map of validations. -/
theorem store_replaces_record_with_same_id :
    ((StoreValidation (NewInMemoryStorage : InMemoryStorage Unit) recA).1.validations.get "A"
      = some (storedValidation recA)) ∧
    ((StoreValidation (StoreValidation (NewInMemoryStorage : InMemoryStorage Unit) recA).1
        recA2).1.validations.get "A" = some (storedValidation recA2)) ∧
    storedValidation recA ≠ storedValidation recA2 ∧
    storedValidation recA ∉
      (StoreValidation (StoreValidation (NewInMemoryStorage : InMemoryStorage Unit) recA).1
        recA2).1.validations.values := by
  have hne : storedValidation recA ≠ storedValidation recA2 := by
    intro h
    have hs := congrArg ValidationRecord.Status h
    exact absurd hs (by decide)
  refine ⟨?_, ?_, hne, ?_⟩
  · exact StoreValidation_get _ recA
  · exact StoreValidation_get _ recA2
  · have hv : (StoreValidation (StoreValidation (NewInMemoryStorage : InMemoryStorage Unit)
        recA).1 recA2).1.validations.values = [storedValidation recA2] := rfl
    rw [hv]
    simpa using hne

/-- Claim C6: for every sequence of `Store*` calls on an empty storage and every user `u`,
`GetUserHistory(u)` returns no error and a history with `UserID` `u` whose four sequences
are, kind by kind, the records that the calls stored for `u` (each with `Hash` and
`PreviousHash` filled in), in the order of the calls, one entry per call. -/
theorem history_is_stored_records_in_order {E : Type} (marshal : List E → String)
    (calls : List (StoreCall E)) (u : String) :
    (GetUserHistory (runCalls marshal NewInMemoryStorage calls) u).2.1 =
      { UserID := u
        Validations := (validationsOf u calls).map storedValidation
        Appeals := (appealsOf u calls).map (storedAppeal marshal)
        AccessChecks := (accessChecksOf u calls).map storedAccessCheck
        GeofenceChecks := (geofenceChecksOf u calls).map storedGeofenceCheck } ∧
    (GetUserHistory (runCalls marshal NewInMemoryStorage calls) u).2.2 = none := by
  refine ⟨?_, GetUserHistory_error _ _⟩
  rw [history_runCalls]
  simp [GetUserHistory, NewInMemoryStorage, GoMap.get_empty]

/-- Claim C7: when the storage holds no history for `userID` and none of the calls that
follow stores a record for `userID`, `GetUserHistory(userID)` leaves the storage as it is
and returns no error and the history with that `UserID` and four empty sequences. -/
theorem history_of_unknown_user {E : Type} (marshal : List E → String)
    (s : InMemoryStorage E) (calls : List (StoreCall E)) (userID : String)
    (hnew : s.userHistories.get userID = none)
    (hcalls : ∀ c ∈ calls, c.userID ≠ userID) :
    GetUserHistory (runCalls marshal s calls) userID =
      (runCalls marshal s calls, ⟨userID, [], [], [], []⟩, none) := by
  have hstate := GetUserHistory_storage (runCalls marshal s calls) userID
  have herr := GetUserHistory_error (runCalls marshal s calls) userID
  have hhist := history_runCalls marshal calls s userID
  have h0 : (GetUserHistory s userID).2.1 = ⟨userID, [], [], [], []⟩ := by
    simp [GetUserHistory, hnew]
  have hv : validationsOf userID calls = [] := by
    unfold validationsOf
    rw [List.filterMap_eq_nil_iff]
    intro c hc
    have := hcalls c hc
    cases c <;> simp_all [StoreCall.userID]
  have ha : appealsOf userID calls = [] := by
    unfold appealsOf
    rw [List.filterMap_eq_nil_iff]
    intro c hc
    have := hcalls c hc
    cases c <;> simp_all [StoreCall.userID]
  have hc : accessChecksOf userID calls = [] := by
    unfold accessChecksOf
    rw [List.filterMap_eq_nil_iff]
    intro c hc
    have := hcalls c hc
    cases c <;> simp_all [StoreCall.userID]
  have hg : geofenceChecksOf userID calls = [] := by
    unfold geofenceChecksOf
    rw [List.filterMap_eq_nil_iff]
    intro c hc
    have := hcalls c hc
    cases c <;> simp_all [StoreCall.userID]
  rw [h0, hv, ha, hc, hg] at hhist
  simp only [List.map_nil, List.append_nil] at hhist
  rw [Prod.ext_iff, Prod.ext_iff]
  exact ⟨hstate, hhist, herr⟩

/-- Witness of `history_of_unknown_user`: after `StoreValidation` of `recA` (user `U1`) on
an empty storage, the user `U2` has the empty history. -/
theorem history_of_unknown_user_witness :
    ((NewInMemoryStorage : InMemoryStorage Unit).userHistories.get "U2" = none ∧
      ∀ c ∈ [StoreCall.validation recA], (c : StoreCall Unit).userID ≠ "U2") ∧
    GetUserHistory (runCalls marshalUnit NewInMemoryStorage [StoreCall.validation recA]) "U2" =
      (runCalls marshalUnit NewInMemoryStorage [StoreCall.validation recA],
        ⟨"U2", [], [], [], []⟩, none) :=
  have hcalls : ∀ c ∈ [StoreCall.validation recA], (c : StoreCall Unit).userID ≠ "U2" := by
    intro c hc
    simp only [List.mem_singleton] at hc
    subst hc
    decide
  ⟨⟨rfl, hcalls⟩,
    history_of_unknown_user marshalUnit NewInMemoryStorage [StoreCall.validation recA] "U2" rfl
      hcalls⟩

/-! ## The sort of `createHashChain` -/

theorem exchangeStep_append (pre mid rest : List ChainRecord) (x y : ChainRecord) :
    exchangeStep (pre ++ x :: (mid ++ y :: rest)) pre.length (pre.length + 1 + mid.length) =
      if x.timestamp.After y.timestamp then pre ++ y :: (mid ++ x :: rest)
      else pre ++ x :: (mid ++ y :: rest) := by
  have hi : (pre ++ x :: (mid ++ y :: rest))[pre.length]? = some x := by
    rw [List.getElem?_append_right (Nat.le_refl _)]
    simp
  have hj : (pre ++ x :: (mid ++ y :: rest))[pre.length + 1 + mid.length]? = some y := by
    rw [List.getElem?_append_right (by omega)]
    have : pre.length + 1 + mid.length - pre.length = mid.length + 1 := by omega
    rw [this, List.getElem?_cons_succ, List.getElem?_append_right (Nat.le_refl _)]
    simp
  unfold exchangeStep
  rw [hi, hj]
  simp only
  split
  · rw [List.set_append_right _ _ (Nat.le_refl _), Nat.sub_self, List.set_cons_zero]
    rw [List.set_append_right _ _ (by omega)]
    have : pre.length + 1 + mid.length - pre.length = mid.length + 1 := by omega
    rw [this, List.set_cons_succ, List.set_append_right _ _ (Nat.le_refl _), Nat.sub_self,
      List.set_cons_zero]
  · rfl

theorem sortInner_append (rest : List ChainRecord) :
    ∀ (pre mid : List ChainRecord) (x : ChainRecord),
      sortInner pre.length rest.length (pre.length + 1 + mid.length) (pre ++ x :: (mid ++ rest)) =
        pre ++ (exchangePass x rest).1 :: (mid ++ (exchangePass x rest).2) := by
  induction rest with
  | nil => intro pre mid x; rfl
  | cons y ys ih =>
    intro pre mid x
    simp only [List.length_cons, sortInner]
    rw [exchangeStep_append]
    by_cases h : x.timestamp.After y.timestamp = true
    · simp only [h, if_true, exchangePass]
      have := ih pre (mid ++ [x]) y
      simp only [List.length_append, List.length_singleton, List.append_assoc,
        List.singleton_append] at this
      rw [← Nat.add_assoc] at this
      exact this
    · simp only [h, if_false, exchangePass]
      have := ih pre (mid ++ [y]) x
      simp only [List.length_append, List.length_singleton, List.append_assoc,
        List.singleton_append] at this
      rw [← Nat.add_assoc] at this
      simpa using this

theorem exchangePass_length (l : List ChainRecord) :
    ∀ x : ChainRecord, (exchangePass x l).2.length = l.length := by
  induction l with
  | nil => intro x; rfl
  | cons y ys ih =>
    intro x
    unfold exchangePass
    split <;> simp [ih]

theorem sortOuter_append (n : Nat) :
    ∀ (pre l : List ChainRecord), n < l.length →
      sortOuter n pre.length (pre ++ l) = pre ++ exchangeSort n l := by
  induction n with
  | zero => intro pre l _; rfl
  | succ n ih =>
    intro pre l hl
    cases l with
    | nil => simp at hl
    | cons x rest =>
      simp only [sortOuter, exchangeSort]
      have hlen : (pre ++ x :: rest).length - (pre.length + 1) = rest.length := by
        simp only [List.length_append, List.length_cons]
        omega
      rw [hlen]
      have hin := sortInner_append rest pre [] x
      simp only [List.length_nil, Nat.add_zero, List.nil_append] at hin
      rw [hin]
      have hn : n < (exchangePass x rest).2.length := by
        rw [exchangePass_length]
        simpa using hl
      have := ih (pre ++ [(exchangePass x rest).1]) (exchangePass x rest).2 hn
      simpa using this

theorem sortByTimestamp_eq (records : List ChainRecord) :
    sortByTimestamp records = exchangeSort (records.length - 1) records := by
  unfold sortByTimestamp
  cases records with
  | nil => rfl
  | cons x rest =>
    have := sortOuter_append ((x :: rest).length - 1) [] (x :: rest) (by simp)
    simpa using this

theorem Time.le_trans {a b c : Time} (hab : a.le b) (hbc : b.le c) : a.le c := by
  unfold Time.le Time.After at *
  simp only [Bool.or_eq_false_iff, Bool.and_eq_false_iff, decide_eq_false_iff_not] at *
  omega

theorem Time.le_of_after {a b : Time} (h : a.After b = true) : b.le a := by
  unfold Time.le Time.After at *
  simp only [Bool.or_eq_true, Bool.and_eq_true, decide_eq_true_eq, Bool.or_eq_false_iff,
    Bool.and_eq_false_iff, decide_eq_false_iff_not] at *
  omega

theorem Time.le_refl (a : Time) : a.le a := by
  unfold Time.le Time.After
  simp

theorem exchangePass_perm (l : List ChainRecord) :
    ∀ x : ChainRecord, ((exchangePass x l).1 :: (exchangePass x l).2).Perm (x :: l) := by
  induction l with
  | nil => intro x; exact List.Perm.refl _
  | cons y ys ih =>
    intro x
    unfold exchangePass
    split
    · exact (List.Perm.swap _ _ _).trans ((ih y).cons x)
    · exact ((List.Perm.swap _ _ _).trans ((ih x).cons y)).trans (List.Perm.swap _ _ _)

theorem exchangePass_min (l : List ChainRecord) :
    ∀ x : ChainRecord, (exchangePass x l).1.timestamp.le x.timestamp ∧
      ∀ y ∈ (exchangePass x l).2, (exchangePass x l).1.timestamp.le y.timestamp := by
  induction l with
  | nil =>
    intro x
    exact ⟨Time.le_refl _, fun y hy => by simp [exchangePass] at hy⟩
  | cons y ys ih =>
    intro x
    unfold exchangePass
    split
    next h =>
      have hy := ih y
      have hyx : y.timestamp.le x.timestamp := Time.le_of_after h
      refine ⟨Time.le_trans hy.1 hyx, ?_⟩
      intro z hz
      rcases List.mem_cons.mp hz with hzx | hzr
      · rw [hzx]; exact Time.le_trans hy.1 hyx
      · exact hy.2 z hzr
    next h =>
      have hx := ih x
      have hxy : x.timestamp.le y.timestamp := by
        simpa [Time.le] using h
      refine ⟨hx.1, ?_⟩
      intro z hz
      rcases List.mem_cons.mp hz with hzy | hzr
      · rw [hzy]; exact Time.le_trans hx.1 hxy
      · exact hx.2 z hzr

theorem exchangeSort_perm (n : Nat) : ∀ l : List ChainRecord, (exchangeSort n l).Perm l := by
  induction n with
  | zero => intro l; exact List.Perm.refl _
  | succ n ih =>
    intro l
    cases l with
    | nil => exact List.Perm.refl _
    | cons x rest =>
      simp only [exchangeSort]
      exact ((ih _).cons _).trans (exchangePass_perm rest x)

theorem exchangeSort_sorted (n : Nat) :
    ∀ l : List ChainRecord, l.length ≤ n + 1 →
      (exchangeSort n l).Pairwise (fun a b => a.timestamp.le b.timestamp) := by
  induction n with
  | zero =>
    intro l hl
    match l, hl with
    | [], _ => exact List.Pairwise.nil
    | [x], _ => exact List.pairwise_singleton _ _
  | succ n ih =>
    intro l hl
    cases l with
    | nil => exact List.Pairwise.nil
    | cons x rest =>
      simp only [exchangeSort]
      refine List.Pairwise.cons ?_ (ih _ ?_)
      · intro y hy
        exact (exchangePass_min rest x).2 y ((exchangeSort_perm n _).mem_iff.mp hy)
      · rw [exchangePass_length]
        simpa using hl

theorem sortByTimestamp_perm (records : List ChainRecord) :
    (sortByTimestamp records).Perm records := by
  rw [sortByTimestamp_eq]
  exact exchangeSort_perm _ _

theorem sortByTimestamp_sorted (records : List ChainRecord) :
    (sortByTimestamp records).Pairwise (fun a b => a.timestamp.le b.timestamp) := by
  rw [sortByTimestamp_eq]
  exact exchangeSort_sorted _ _ (by omega)

/-! ## The nodes of the chain -/

theorem chainNodes_length (l : List ChainRecord) :
    ∀ p : String, (chainNodes p l).length = l.length := by
  induction l with
  | nil => intro p; rfl
  | cons r rest ih => intro p; simp [chainNodes, ih]

theorem chainNodes_fields (l : List ChainRecord) :
    ∀ p : String, (chainNodes p l).map (fun n => (n.Id, n.Type_, n.Hash, n.Timestamp)) =
      l.map (fun r => (r.id, r.typeStr, r.hash, r.timestamp.FormatRFC3339)) := by
  induction l with
  | nil => intro p; rfl
  | cons r rest ih => intro p; simp [chainNodes, ih]

theorem chainNodes_head (l : List ChainRecord) (p : String) (node : HashChainNode)
    (h : (chainNodes p l)[0]? = some node) : node.PreviousHash = p := by
  cases l with
  | nil => simp [chainNodes] at h
  | cons r rest =>
    simp only [chainNodes, List.getElem?_cons_zero, Option.some.injEq] at h
    rw [← h]

theorem chainNodes_link (l : List ChainRecord) :
    ∀ (p : String) (i : Nat) (prev node : HashChainNode),
      (chainNodes p l)[i]? = some prev → (chainNodes p l)[i + 1]? = some node →
        node.PreviousHash = prev.Hash := by
  induction l with
  | nil => intro p i prev node h; simp [chainNodes] at h
  | cons r rest ih =>
    intro p i prev node h1 h2
    simp only [chainNodes, List.getElem?_cons_succ] at h2
    cases i with
    | zero =>
      simp only [chainNodes, List.getElem?_cons_zero, Option.some.injEq] at h1
      rw [← h1]
      exact chainNodes_head rest r.hash node h2
    | succ i =>
      simp only [chainNodes, List.getElem?_cons_succ] at h1
      exact ih r.hash i prev node h1 h2

/-! ## The hash chain of an order -/

/-- Claim C8: for every storage and `orderID`, the hash chain is the node sequence of the
sorted records; the sorted records are a permutation of the records collected for the
order, so the exchange loop loses and duplicates none; no record in the sorted sequence has
a timestamp after that of a later one; and the nodes carry, in that order, the id, kind,
hash and formatted timestamp of the sorted records. -/
theorem hash_chain_sorted_permutation {E : Type} (s : InMemoryStorage E) (orderID : String) :
    createHashChain s orderID = chainNodes "" (sortByTimestamp (collectRecords s orderID)) ∧
    (sortByTimestamp (collectRecords s orderID)).Perm (collectRecords s orderID) ∧
    (sortByTimestamp (collectRecords s orderID)).Pairwise
      (fun a b => a.timestamp.After b.timestamp = false) ∧
    (createHashChain s orderID).map (fun n => (n.Id, n.Type_, n.Hash, n.Timestamp)) =
      (sortByTimestamp (collectRecords s orderID)).map
        (fun r => (r.id, r.typeStr, r.hash, r.timestamp.FormatRFC3339)) :=
  ⟨rfl, sortByTimestamp_perm _, sortByTimestamp_sorted _, chainNodes_fields _ _⟩

/-- Claim C10: in every chain that `createHashChain` returns, the first node has the empty
string as `PreviousHash`, every later node has the `Hash` of the node before it as
`PreviousHash`, and so the `PreviousHash` of every node is the empty string or the `Hash`
of a node of the same chain. -/
theorem hash_chain_links {E : Type} (s : InMemoryStorage E) (orderID : String) :
    (∀ node, (createHashChain s orderID)[0]? = some node → node.PreviousHash = "") ∧
    (∀ i prev node, (createHashChain s orderID)[i]? = some prev →
      (createHashChain s orderID)[i + 1]? = some node → node.PreviousHash = prev.Hash) ∧
    (∀ node ∈ createHashChain s orderID,
      node.PreviousHash = "" ∨ ∃ prev ∈ createHashChain s orderID, prev.Hash = node.PreviousHash) := by
  have h0 : ∀ node, (createHashChain s orderID)[0]? = some node → node.PreviousHash = "" :=
    fun node h => chainNodes_head _ _ node h
  have h1 : ∀ i prev node, (createHashChain s orderID)[i]? = some prev →
      (createHashChain s orderID)[i + 1]? = some node → node.PreviousHash = prev.Hash :=
    fun i prev node hp hn => chainNodes_link _ _ i prev node hp hn
  refine ⟨h0, h1, ?_⟩
  intro node hmem
  obtain ⟨i, hi⟩ := List.getElem?_of_mem hmem
  cases i with
  | zero => exact Or.inl (h0 node hi)
  | succ i =>
    have hlt : i < (createHashChain s orderID).length := by
      have := (List.getElem?_eq_some_iff.mp hi).1
      omega
    refine Or.inr ⟨(createHashChain s orderID)[i], List.getElem_mem _, ?_⟩
    exact (h1 i _ node (List.getElem?_eq_getElem hlt) hi).symm

/-- Witness of `hash_chain_links`: the chain of order `O1` after storing the validation `A`
and the access check `D` has the node of `A` first and the node of `D` second, and the
`PreviousHash` of the second is the `Hash` of the first. -/
theorem hash_chain_links_witness :
    (createHashChain (runCalls marshalUnit NewInMemoryStorage
        [StoreCall.validation recA, StoreCall.accessCheck recD]) "O1")[0]? =
      some ⟨"A", "VALIDATION", calculateHash recA, "", recA.Timestamp.FormatRFC3339⟩ ∧
    (createHashChain (runCalls marshalUnit NewInMemoryStorage
        [StoreCall.validation recA, StoreCall.accessCheck recD]) "O1")[1]? =
      some ⟨"D", "ACCESS_CHECK", calculateAccessCheckHash recD, calculateHash recA,
        recD.Timestamp.FormatRFC3339⟩ ∧
    (HashChainNode.mk "D" "ACCESS_CHECK" (calculateAccessCheckHash recD) (calculateHash recA)
        recD.Timestamp.FormatRFC3339).PreviousHash =
      (HashChainNode.mk "A" "VALIDATION" (calculateHash recA) ""
        recA.Timestamp.FormatRFC3339).Hash :=
  ⟨rfl, rfl,
    (hash_chain_links (runCalls marshalUnit NewInMemoryStorage
        [StoreCall.validation recA, StoreCall.accessCheck recD]) "O1").2.1 0 _ _ rfl rfl⟩

theorem collectRecords_perm {E : Type} (s1 s2 : InMemoryStorage E) (orderID : String)
    (hv : s1.validations.entries.Perm s2.validations.entries)
    (ha : s1.accessChecks.entries.Perm s2.accessChecks.entries)
    (hg : s1.geofenceChecks.entries.Perm s2.geofenceChecks.entries) :
    (collectRecords s1 orderID).Perm (collectRecords s2 orderID) := by
  unfold collectRecords GoMap.values
  exact ((((hv.map _).filter _).map _).append (((ha.map _).filter _).map _)).append
    (((hg.map _).filter _).map _)

/-- Two sequences of records that are sorted by timestamp, hold the same records, and hold
no two records of the same instant are equal. -/
theorem sorted_unique {l1 l2 : List ChainRecord} (hp : l1.Perm l2)
    (h1 : l1.Pairwise (fun a b => a.timestamp.le b.timestamp))
    (h2 : l2.Pairwise (fun a b => a.timestamp.le b.timestamp))
    (hd : l1.Pairwise (fun a b => ¬ a.timestamp.sameInstant b.timestamp)) : l1 = l2 := by
  have hsymm : ∀ {x y : ChainRecord}, ¬ x.timestamp.sameInstant y.timestamp →
      ¬ y.timestamp.sameInstant x.timestamp := by
    intro x y h hyx
    exact h ⟨hyx.1.symm, hyx.2.symm⟩
  have hd2 : l2.Pairwise (fun a b => ¬ a.timestamp.sameInstant b.timestamp) :=
    hp.pairwise hd hsymm
  have hstrict : ∀ a b : ChainRecord,
      a.timestamp.le b.timestamp ∧ ¬ a.timestamp.sameInstant b.timestamp →
        b.timestamp.After a.timestamp = true := by
    intro a b h
    have hle := h.1
    have hne := h.2
    unfold Time.le Time.After at hle
    unfold Time.sameInstant at hne
    unfold Time.After
    simp only [Bool.or_eq_true, Bool.and_eq_true, decide_eq_true_eq, Bool.or_eq_false_iff,
      Bool.and_eq_false_iff, decide_eq_false_iff_not] at *
    omega
  have s1 : l1.Pairwise (fun a b => b.timestamp.After a.timestamp = true) :=
    (h1.and hd).imp (fun {a b} h => hstrict a b h)
  have s2 : l2.Pairwise (fun a b => b.timestamp.After a.timestamp = true) :=
    (h2.and hd2).imp (fun {a b} h => hstrict a b h)
  haveI : IsAntisymm ChainRecord (fun a b => b.timestamp.After a.timestamp = true) :=
    ⟨by
      intro a b hab hba
      exfalso
      unfold Time.After at hab hba
      simp only [Bool.or_eq_true, Bool.and_eq_true, decide_eq_true_eq] at hab hba
      omega⟩
  exact List.eq_of_perm_of_sorted hp s1 s2

theorem sortByTimestamp_unique {l1 l2 : List ChainRecord} (hp : l1.Perm l2)
    (hd : l1.Pairwise (fun a b => ¬ a.timestamp.sameInstant b.timestamp)) :
    sortByTimestamp l1 = sortByTimestamp l2 := by
  have hsymm : ∀ {x y : ChainRecord}, ¬ x.timestamp.sameInstant y.timestamp →
      ¬ y.timestamp.sameInstant x.timestamp := by
    intro x y h hyx
    exact h ⟨hyx.1.symm, hyx.2.symm⟩
  refine sorted_unique ?_ (sortByTimestamp_sorted l1) (sortByTimestamp_sorted l2) ?_
  · exact ((sortByTimestamp_perm l1).trans hp).trans (sortByTimestamp_perm l2).symm
  · exact (sortByTimestamp_perm l1).symm.pairwise hd hsymm

/-- Claim C9 as amended: when the records collected for an order have pairwise different
instants as timestamps, two storages whose maps hold the same entries in any two orders of
enumeration give the same hash chain and the same Merkle root, and `GetEvidencePackage`
gives on both the same outcome as to `HashChain`, `RootHash` and `MerkleRoot`. -/
theorem hash_chain_independent_of_enumeration {E : Type} (env : PackageEnv)
    (s1 s2 : InMemoryStorage E) (orderID : String)
    (hv : s1.validations.entries.Perm s2.validations.entries)
    (ha : s1.accessChecks.entries.Perm s2.accessChecks.entries)
    (hg : s1.geofenceChecks.entries.Perm s2.geofenceChecks.entries)
    (hd : (collectRecords s1 orderID).Pairwise
      (fun a b => ¬ a.timestamp.sameInstant b.timestamp)) :
    createHashChain s1 orderID = createHashChain s2 orderID ∧
    calculateMerkleRoot (createHashChain s1 orderID) =
      calculateMerkleRoot (createHashChain s2 orderID) ∧
    (GetEvidencePackage env s1 orderID).map
        (fun p => (p.1.HashChain, p.1.RootHash, p.1.MerkleRoot)) =
      (GetEvidencePackage env s2 orderID).map
        (fun p => (p.1.HashChain, p.1.RootHash, p.1.MerkleRoot)) := by
  have hchain : createHashChain s1 orderID = createHashChain s2 orderID := by
    unfold createHashChain
    rw [sortByTimestamp_unique (collectRecords_perm s1 s2 orderID hv ha hg) hd]
  refine ⟨hchain, by rw [hchain], ?_⟩
  unfold GetEvidencePackage
  simp only [hchain]
  cases (createHashChain s2 orderID).getLast? <;> rfl

/-- Witness of `hash_chain_independent_of_enumeration`: the validations `A` and `F` of order
`O1`, enumerated as `A, F` and as `F, A`. -/
theorem hash_chain_independent_of_enumeration_witness :
    (storageAF.validations.entries.Perm storageFA.validations.entries ∧
      storageAF.accessChecks.entries.Perm storageFA.accessChecks.entries ∧
      storageAF.geofenceChecks.entries.Perm storageFA.geofenceChecks.entries ∧
      (collectRecords storageAF "O1").Pairwise
        (fun a b => ¬ a.timestamp.sameInstant b.timestamp)) ∧
    createHashChain storageAF "O1" = createHashChain storageFA "O1" ∧
    calculateMerkleRoot (createHashChain storageAF "O1") =
      calculateMerkleRoot (createHashChain storageFA "O1") ∧
    (GetEvidencePackage sampleEnv storageAF "O1").map
        (fun p => (p.1.HashChain, p.1.RootHash, p.1.MerkleRoot)) =
      (GetEvidencePackage sampleEnv storageFA "O1").map
        (fun p => (p.1.HashChain, p.1.RootHash, p.1.MerkleRoot)) :=
  have hv : storageAF.validations.entries.Perm storageFA.validations.entries :=
    (List.reverse_perm _).symm
  have hd : (collectRecords storageAF "O1").Pairwise
      (fun a b => ¬ a.timestamp.sameInstant b.timestamp) := by decide
  ⟨⟨hv, List.Perm.refl _, List.Perm.refl _, hd⟩,
    hash_chain_independent_of_enumeration sampleEnv storageAF storageFA "O1" hv
      (List.Perm.refl _) (List.Perm.refl _) hd⟩

set_option maxRecDepth 100000 in
theorem calculateHash_recA_ne_recE : calculateHash recA ≠ calculateHash recE := by decide

/-- Claim C9 refuted for equal timestamps: the storages `storageAE` and `storageEA` hold
the same records, the validations `A` and `E` of order `O1` with one timestamp, and differ
only in the order in which the map of validations enumerates them; the chain of the first
is `A, E`, the chain of the second is `E, A`, not the order of (kind, id), and the two
packages have different root hashes. -/
theorem hash_chain_depends_on_enumeration :
    storageAE.validations.entries.Perm storageEA.validations.entries ∧
    storageAE.accessChecks.entries = storageEA.accessChecks.entries ∧
    storageAE.geofenceChecks.entries = storageEA.geofenceChecks.entries ∧
    recA.Timestamp = recE.Timestamp ∧
    (createHashChain storageAE "O1").map (fun n => n.Id) = ["A", "E"] ∧
    (createHashChain storageEA "O1").map (fun n => n.Id) = ["E", "A"] ∧
    (GetEvidencePackage sampleEnv storageAE "O1").toOption.map (fun p => p.1.RootHash) ≠
      (GetEvidencePackage sampleEnv storageEA "O1").toOption.map (fun p => p.1.RootHash) := by
  have h1 : (GetEvidencePackage sampleEnv storageAE "O1").toOption.map (fun p => p.1.RootHash)
      = some (calculateHash recE) := rfl
  have h2 : (GetEvidencePackage sampleEnv storageEA "O1").toOption.map (fun p => p.1.RootHash)
      = some (calculateHash recA) := rfl
  refine ⟨(List.reverse_perm _).symm, rfl, rfl, rfl, by decide, by decide, ?_⟩
  rw [h1, h2]
  intro h
  exact calculateHash_recA_ne_recE (Option.some.inj h).symm

/-! ## The strings that are hashed -/

theorem str_append_right_inj (a b c : String) : a ++ b = a ++ c ↔ b = c := by
  simp only [String.ext_iff, String.data_append, List.append_cancel_left_eq]

theorem str_append_left_inj (a b c : String) : a ++ c = b ++ c ↔ a = b := by
  simp only [String.ext_iff, String.data_append, List.append_cancel_right_eq]

theorem fmtBool_inj (a b : Bool) : fmtBool a = fmtBool b ↔ a = b := by
  cases a <;> cases b <;> decide

/-- Claim C3 refuted: the access check records `recG1` (id `check1`, user `0user`) and
`recG2` (id `check10`, user `user`) differ in `ID` and `UserID` and in no other field, and
`calculateAccessCheckHash` feeds the same string to SHA-256 for both, so that their hashes
are equal. -/
theorem hash_data_not_injective :
    recG1.ID ≠ recG2.ID ∧ recG1.UserID ≠ recG2.UserID ∧
    recG2 = { recG1 with ID := recG2.ID, UserID := recG2.UserID } ∧
    calculateAccessCheckHashData recG1 = calculateAccessCheckHashData recG2 ∧
    calculateAccessCheckHash recG1 = calculateAccessCheckHash recG2 := by
  have hdata : calculateAccessCheckHashData recG1 = calculateAccessCheckHashData recG2 := by
    decide
  exact ⟨by decide, by decide, rfl, hdata, congrArg sha256Hex hdata⟩

/-- Claim C3 as amended: the hash of a record is the SHA-256, in lower-case hexadecimal, of
the string `data` that the hash function of its kind builds; and for every record,
changing one field that this function formats with `%s` or `%t` to another value, all other
fields staying as they are, changes that string. -/
theorem hash_data_changes_with_one_field {E : Type} (marshal : List E → String) :
    (∀ (r : ValidationRecord) (v : String),
      calculateHash r = sha256Hex (calculateHashData r) ∧
      (v ≠ r.EventID → calculateHashData { r with EventID := v } ≠ calculateHashData r) ∧
      (v ≠ r.UserID → calculateHashData { r with UserID := v } ≠ calculateHashData r) ∧
      (v ≠ r.OrderID → calculateHashData { r with OrderID := v } ≠ calculateHashData r) ∧
      (v ≠ r.Currency → calculateHashData { r with Currency := v } ≠ calculateHashData r) ∧
      (v ≠ r.Status → calculateHashData { r with Status := v } ≠ calculateHashData r) ∧
      (v ≠ r.Reason → calculateHashData { r with Reason := v } ≠ calculateHashData r)) ∧
    (∀ (r : AppealRecord E) (v : String),
      calculateAppealHash marshal r = sha256Hex (calculateAppealHashData marshal r) ∧
      (v ≠ r.AppealID → calculateAppealHashData marshal { r with AppealID := v } ≠
        calculateAppealHashData marshal r) ∧
      (v ≠ r.EventID → calculateAppealHashData marshal { r with EventID := v } ≠
        calculateAppealHashData marshal r) ∧
      (v ≠ r.UserID → calculateAppealHashData marshal { r with UserID := v } ≠
        calculateAppealHashData marshal r) ∧
      (v ≠ r.Justification → calculateAppealHashData marshal { r with Justification := v } ≠
        calculateAppealHashData marshal r)) ∧
    (∀ (r : AccessCheckRecord) (v : String) (b : Bool),
      calculateAccessCheckHash r = sha256Hex (calculateAccessCheckHashData r) ∧
      (v ≠ r.ID → calculateAccessCheckHashData { r with ID := v } ≠
        calculateAccessCheckHashData r) ∧
      (v ≠ r.UserID → calculateAccessCheckHashData { r with UserID := v } ≠
        calculateAccessCheckHashData r) ∧
      (v ≠ r.OrderID → calculateAccessCheckHashData { r with OrderID := v } ≠
        calculateAccessCheckHashData r) ∧
      (b ≠ r.AccessGranted → calculateAccessCheckHashData { r with AccessGranted := b } ≠
        calculateAccessCheckHashData r) ∧
      (v ≠ r.Reason → calculateAccessCheckHashData { r with Reason := v } ≠
        calculateAccessCheckHashData r) ∧
      (b ≠ r.RequiresBiometrics →
        calculateAccessCheckHashData { r with RequiresBiometrics := b } ≠
          calculateAccessCheckHashData r)) ∧
    (∀ (r : GeofenceCheckRecord) (v : String) (b : Bool),
      calculateGeofenceCheckHash r = sha256Hex (calculateGeofenceCheckHashData r) ∧
      (v ≠ r.ID → calculateGeofenceCheckHashData { r with ID := v } ≠
        calculateGeofenceCheckHashData r) ∧
      (v ≠ r.UserID → calculateGeofenceCheckHashData { r with UserID := v } ≠
        calculateGeofenceCheckHashData r) ∧
      (v ≠ r.OrderID → calculateGeofenceCheckHashData { r with OrderID := v } ≠
        calculateGeofenceCheckHashData r) ∧
      (b ≠ r.IsInside → calculateGeofenceCheckHashData { r with IsInside := b } ≠
        calculateGeofenceCheckHashData r) ∧
      (v ≠ r.ViolationReason →
        calculateGeofenceCheckHashData { r with ViolationReason := v } ≠
          calculateGeofenceCheckHashData r)) := by
  refine ⟨?_, ?_, ?_, ?_⟩
  · intro r v
    refine ⟨rfl, ?_, ?_, ?_, ?_, ?_, ?_⟩ <;>
    · intro hv h
      apply hv
      simpa only [calculateHashData, String.append_assoc, str_append_right_inj,
        str_append_left_inj] using h
  · intro r v
    refine ⟨rfl, ?_, ?_, ?_, ?_⟩ <;>
    · intro hv h
      apply hv
      simpa only [calculateAppealHashData, String.append_assoc, str_append_right_inj,
        str_append_left_inj] using h
  · intro r v b
    refine ⟨rfl, ?_, ?_, ?_, ?_, ?_, ?_⟩ <;>
    · intro hv h
      apply hv
      simpa only [calculateAccessCheckHashData, String.append_assoc, str_append_right_inj,
        str_append_left_inj, fmtBool_inj] using h
  · intro r v b
    refine ⟨rfl, ?_, ?_, ?_, ?_, ?_⟩ <;>
    · intro hv h
      apply hv
      simpa only [calculateGeofenceCheckHashData, String.append_assoc, str_append_right_inj,
        str_append_left_inj, fmtBool_inj] using h

/-- Witness of `hash_data_changes_with_one_field`: the access check record `recB` with its
`ID` changed from `B` to `X`. -/
theorem hash_data_changes_with_one_field_witness :
    "X" ≠ recB.ID ∧
    calculateAccessCheckHashData { recB with ID := "X" } ≠ calculateAccessCheckHashData recB :=
  ⟨by decide,
    ((hash_data_changes_with_one_field marshalUnit).2.2.1 recB "X" true).2.1 (by decide)⟩

/-! ## The evidence package -/

theorem chainNodes_triples (l : List ChainRecord) :
    ∀ p : String, (chainNodes p l).map (fun n => (n.Id, n.Type_, n.Hash)) =
      l.map (fun r => (r.id, r.typeStr, r.hash)) := by
  induction l with
  | nil => intro p; rfl
  | cons r rest ih => intro p; simp [chainNodes, ih]

theorem chainNodes_eq_nil (l : List ChainRecord) (p : String) :
    chainNodes p l = [] ↔ l = [] := by
  cases l <;> simp [chainNodes]

theorem sortByTimestamp_eq_nil (l : List ChainRecord) : sortByTimestamp l = [] ↔ l = [] := by
  constructor
  · intro h
    have hp := sortByTimestamp_perm l
    rw [h] at hp
    exact List.Perm.eq_nil hp.symm
  · intro h
    rw [h]
    rfl

theorem createHashChain_eq_nil {E : Type} (s : InMemoryStorage E) (orderID : String) :
    createHashChain s orderID = [] ↔ collectRecords s orderID = [] := by
  unfold createHashChain
  rw [chainNodes_eq_nil, sortByTimestamp_eq_nil]

/-- The outcome of `GetEvidencePackage`: a panic when the chain is empty, and otherwise the
package with the chain, the hash of its last node as `RootHash`, and no error. -/
theorem GetEvidencePackage_outcome {E : Type} (env : PackageEnv) (s : InMemoryStorage E)
    (orderID : String) :
    (createHashChain s orderID = [] ∧
      GetEvidencePackage env s orderID =
        Except.error "runtime error: index out of range [-1]") ∨
    (∃ pkg last, GetEvidencePackage env s orderID = Except.ok (pkg, none) ∧
      pkg.OrderID = orderID ∧
      pkg.HashChain = createHashChain s orderID ∧
      (createHashChain s orderID).getLast? = some last ∧
      pkg.RootHash = last.Hash ∧
      pkg.MerkleRoot = calculateMerkleRoot (createHashChain s orderID)) := by
  unfold GetEvidencePackage
  simp only
  split
  next h =>
    left
    exact ⟨List.getLast?_eq_none_iff.mp h, rfl⟩
  next last h =>
    right
    exact ⟨_, last, rfl, rfl, rfl, h, rfl, rfl⟩

/-- Claim C11: for every storage and `orderID`, the nodes of the hash chain, taken as
(id, kind, hash), are a permutation of the validations, access checks and geofence checks
in the maps whose `OrderID` is `orderID`, of all users, each taken as its id, the name of
its kind and its stored `Hash`: one node per such record and no other node.  Appeal records
have no `OrderID` and the chain does not depend on them.  The package that
`GetEvidencePackage` returns carries this chain. -/
theorem hash_chain_nodes_are_order_records {E : Type} (env : PackageEnv)
    (s : InMemoryStorage E) (orderID : String) :
    ((createHashChain s orderID).map (fun n => (n.Id, n.Type_, n.Hash))).Perm
      (((s.validations.values.filter (fun v => v.OrderID == orderID)).map
          (fun v => (v.EventID, "VALIDATION", v.Hash))) ++
        ((s.accessChecks.values.filter (fun a => a.OrderID == orderID)).map
          (fun a => (a.ID, "ACCESS_CHECK", a.Hash))) ++
        ((s.geofenceChecks.values.filter (fun g => g.OrderID == orderID)).map
          (fun g => (g.ID, "GEOFENCE_CHECK", g.Hash)))) ∧
    (∀ appeals : GoMap (AppealRecord E),
      createHashChain { s with appeals := appeals } orderID = createHashChain s orderID) ∧
    (GetEvidencePackage env s orderID).toOption.map (fun p => p.1.HashChain) =
      if (createHashChain s orderID).isEmpty then none else some (createHashChain s orderID) := by
  refine ⟨?_, fun _ => rfl, ?_⟩
  · unfold createHashChain
    rw [chainNodes_triples]
    have hp := (sortByTimestamp_perm (collectRecords s orderID)).map
      (fun r => (r.id, r.typeStr, r.hash))
    have hc : (collectRecords s orderID).map (fun r => (r.id, r.typeStr, r.hash)) =
        ((s.validations.values.filter (fun v => v.OrderID == orderID)).map
          (fun v => (v.EventID, "VALIDATION", v.Hash))) ++
        ((s.accessChecks.values.filter (fun a => a.OrderID == orderID)).map
          (fun a => (a.ID, "ACCESS_CHECK", a.Hash))) ++
        ((s.geofenceChecks.values.filter (fun g => g.OrderID == orderID)).map
          (fun g => (g.ID, "GEOFENCE_CHECK", g.Hash))) := by
      simp only [collectRecords, List.map_append, List.map_map, List.append_assoc]
      rfl
    rw [← hc]
    exact hp
  · rcases GetEvidencePackage_outcome env s orderID with ⟨hnil, herr⟩ | ⟨pkg, last, hok, _, hchain, hlast, _, _⟩
    · rw [herr, hnil]
      rfl
    · have hne : createHashChain s orderID ≠ [] := by
        intro h
        rw [h] at hlast
        simp at hlast
      rw [hok]
      simp [Except.toOption, hchain, hne]

/-- Claim C13, evaluated: on the empty storage, which holds no record of order `O1`, and
on the storage `storageAB`, which holds no record of order `O9`, `GetEvidencePackage` does
not return a package: it stops with the index out of range at
`hashChain[len(hashChain)-1]`, while the chain and the Merkle root it computed before are
the empty chain and the empty string. -/
theorem evidence_package_panics_without_records :
    GetEvidencePackage sampleEnv (NewInMemoryStorage : InMemoryStorage Unit) "O1" =
      Except.error "runtime error: index out of range [-1]" ∧
    collectRecords storageAB "O9" = [] ∧
    createHashChain storageAB "O9" = [] ∧
    calculateMerkleRoot (createHashChain storageAB "O9") = "" ∧
    GetEvidencePackage sampleEnv storageAB "O9" =
      Except.error "runtime error: index out of range [-1]" := by
  refine ⟨rfl, by decide, by decide, by decide, ?_⟩
  rcases GetEvidencePackage_outcome sampleEnv storageAB "O9" with ⟨_, herr⟩ | ⟨_, last, _, _, _, hlast, _, _⟩
  · exact herr
  · have hnil : createHashChain storageAB "O9" = [] := by decide
    rw [hnil] at hlast
    simp at hlast

/-- Claim C14 refuted: for the empty chain `calculateMerkleRoot` returns the empty string,
which is not the digest of the empty byte string. -/
theorem merkle_root_of_empty_chain_not_digest :
    calculateMerkleRoot [] = "" ∧
    sha256Hex "" = "e3b0c44298fc1c149afbf4c8996fb92427ae41e4649b934ca495991b7852b855" ∧
    calculateMerkleRoot [] ≠ sha256Hex "" :=
  ⟨rfl, sha256Hex_empty, fun h => sha256Hex_ne_empty "" h.symm⟩

/-- Claim C14 as amended: for an empty hash chain `calculateMerkleRoot` returns the empty
string, and a chain for which it returns the empty string is empty. -/
theorem merkle_root_of_empty_chain (hashChain : List HashChainNode) :
    calculateMerkleRoot [] = "" ∧ (calculateMerkleRoot hashChain = "" ↔ hashChain = []) := by
  refine ⟨rfl, ?_⟩
  constructor
  · intro h
    cases hashChain with
    | nil => rfl
    | cons n rest =>
      exfalso
      simp only [calculateMerkleRoot, List.length_cons, Nat.add_one_ne_zero, if_false] at h
      exact sha256Hex_ne_empty _ h
  · intro h
    rw [h]
    rfl

theorem sortByTimestamp_singleton (r : ChainRecord) : sortByTimestamp [r] = [r] := rfl

theorem calculateMerkleRoot_cons (n : HashChainNode) (rest : List HashChainNode) :
    calculateMerkleRoot (n :: rest) = sha256Hex (allHashes (n :: rest)) := by
  simp [calculateMerkleRoot, allHashes]

/-- Claim C15: when exactly one record `r` is collected for the order, whatever else the
storage holds, `GetEvidencePackage` returns no error and a package whose chain is the one
node with the id, kind and stored hash of `r` and the empty string as `PreviousHash`, whose
`RootHash` is that hash, and whose `MerkleRoot` is the SHA-256 of that hash. -/
theorem single_record_package {E : Type} (env : PackageEnv) (s : InMemoryStorage E)
    (orderID : String) (r : ChainRecord) (h : collectRecords s orderID = [r]) :
    ∃ pkg, GetEvidencePackage env s orderID = Except.ok (pkg, none) ∧
      pkg.HashChain = [⟨r.id, r.typeStr, r.hash, "", r.timestamp.FormatRFC3339⟩] ∧
      pkg.RootHash = r.hash ∧
      pkg.MerkleRoot = sha256Hex r.hash := by
  have hchain : createHashChain s orderID =
      [⟨r.id, r.typeStr, r.hash, "", r.timestamp.FormatRFC3339⟩] := by
    unfold createHashChain
    rw [h, sortByTimestamp_singleton]
    rfl
  rcases GetEvidencePackage_outcome env s orderID with
    ⟨hnil, _⟩ | ⟨pkg, last, hok, _, hc, hlast, hroot, hm⟩
  · rw [hchain] at hnil
    simp at hnil
  · rw [hchain] at hc hlast hm
    simp only [List.getLast?_singleton, Option.some.injEq] at hlast
    refine ⟨pkg, hok, hc, ?_, ?_⟩
    · rw [hroot, ← hlast]
    · rw [hm, calculateMerkleRoot_cons]
      rfl

/-- Witness of `single_record_package`: the scenario of the specification, where of the
records `A` and `B` of user `U1` only `A` belongs to order `O1`. -/
theorem single_record_package_witness :
    collectRecords storageAB "O1" =
      [⟨"A", "VALIDATION", recA.Timestamp, calculateHash recA⟩] ∧
    ∃ pkg, GetEvidencePackage sampleEnv storageAB "O1" = Except.ok (pkg, none) ∧
      pkg.HashChain =
        [⟨"A", "VALIDATION", calculateHash recA, "", recA.Timestamp.FormatRFC3339⟩] ∧
      pkg.RootHash = calculateHash recA ∧
      pkg.MerkleRoot = sha256Hex (calculateHash recA) :=
  ⟨rfl, single_record_package sampleEnv storageAB "O1"
    ⟨"A", "VALIDATION", recA.Timestamp, calculateHash recA⟩ rfl⟩

theorem chainNodes_getLast (l : List ChainRecord) (p : String) :
    (chainNodes p l).getLast?.map (fun n => (n.Id, n.Type_, n.Hash)) =
      l.getLast?.map (fun r => (r.id, r.typeStr, r.hash)) := by
  rw [← List.getLast?_map, chainNodes_triples, List.getLast?_map]

/-- The last record of a sequence sorted by timestamp has a timestamp that no record of the
sequence is after. -/
theorem sorted_last_is_latest {l : List ChainRecord} {last : ChainRecord}
    (hs : l.Pairwise (fun a b => a.timestamp.le b.timestamp))
    (hl : l.getLast? = some last) : ∀ r ∈ l, r.timestamp.le last.timestamp := by
  obtain ⟨init, hinit⟩ := List.getLast?_eq_some_iff.mp hl
  subst hinit
  intro r hr
  rcases List.mem_append.mp hr with hin | hlast
  · exact (List.pairwise_append.mp hs).2.2 r hin last (List.mem_singleton.mpr rfl)
  · rw [List.mem_singleton.mp hlast]
    exact Time.le_refl _

/-- Claim C16: when at least one record is collected for the order, `GetEvidencePackage`
returns no error and a package whose `RootHash` is the `Hash` of the last node of its
chain; that node has the id, kind and stored hash of a record `latest` of the order, and no
record of the order has a timestamp after that of `latest`. -/
theorem root_hash_is_chain_tip {E : Type} (env : PackageEnv) (s : InMemoryStorage E)
    (orderID : String) (h : collectRecords s orderID ≠ []) :
    ∃ pkg tip latest, GetEvidencePackage env s orderID = Except.ok (pkg, none) ∧
      pkg.HashChain.getLast? = some tip ∧
      pkg.RootHash = tip.Hash ∧
      latest ∈ collectRecords s orderID ∧
      (tip.Id, tip.Type_, tip.Hash) = (latest.id, latest.typeStr, latest.hash) ∧
      ∀ r ∈ collectRecords s orderID, r.timestamp.After latest.timestamp = false := by
  rcases GetEvidencePackage_outcome env s orderID with
    ⟨hnil, _⟩ | ⟨pkg, tip, hok, _, hc, hlast, hroot, _⟩
  · exact absurd ((createHashChain_eq_nil s orderID).mp hnil) h
  · have hsne : sortByTimestamp (collectRecords s orderID) ≠ [] :=
      fun e => h ((sortByTimestamp_eq_nil _).mp e)
    have hl := List.getLast?_eq_getLast _ hsne
    have hmem : (sortByTimestamp (collectRecords s orderID)).getLast hsne ∈
        collectRecords s orderID :=
      (sortByTimestamp_perm _).mem_iff.mp (List.getLast_mem hsne)
    refine ⟨pkg, tip, (sortByTimestamp (collectRecords s orderID)).getLast hsne, hok, ?_, hroot,
      hmem, ?_, ?_⟩
    · rw [hc]
      exact hlast
    · have hg := chainNodes_getLast (sortByTimestamp (collectRecords s orderID)) ""
      have hlast2 : (chainNodes "" (sortByTimestamp (collectRecords s orderID))).getLast? =
          some tip := hlast
      rw [hlast2, hl] at hg
      simpa using hg
    · intro r hr
      exact sorted_last_is_latest (sortByTimestamp_sorted _) hl r
        ((sortByTimestamp_perm _).mem_iff.mpr hr)

/-- Witness of `root_hash_is_chain_tip`: the order `O1` in `storageADF`, with three
records. -/
theorem root_hash_is_chain_tip_witness :
    collectRecords storageADF "O1" ≠ [] ∧
    ∃ pkg tip latest, GetEvidencePackage sampleEnv storageADF "O1" = Except.ok (pkg, none) ∧
      pkg.HashChain.getLast? = some tip ∧
      pkg.RootHash = tip.Hash ∧
      latest ∈ collectRecords storageADF "O1" ∧
      (tip.Id, tip.Type_, tip.Hash) = (latest.id, latest.typeStr, latest.hash) ∧
      ∀ r ∈ collectRecords storageADF "O1", r.timestamp.After latest.timestamp = false :=
  have hne : collectRecords storageADF "O1" ≠ [] := by
    intro h
    have hlen := congrArg List.length h
    exact absurd hlen (by decide)
  ⟨hne, root_hash_is_chain_tip sampleEnv storageADF "O1" hne⟩

/-! ## The form of the hashes -/

theorem hexDigit_isLowerHexDigit (n : Nat) : isLowerHexDigit (hexDigit n) = true := by
  by_cases h : n < 16
  · interval_cases n <;> decide
  · have hlen : "0123456789abcdef".toList.length ≤ n := by
      have : "0123456789abcdef".toList.length = 16 := by decide
      omega
    unfold hexDigit
    rw [List.getD_eq_default _ _ hlen]
    decide

theorem hexEncodeToString_chars (bs : List UInt8) :
    (hexEncodeToString bs).data.all isLowerHexDigit = true := by
  unfold hexEncodeToString
  simp only [List.all_eq_true, List.mem_flatMap]
  rintro c ⟨b, _, hc⟩
  simp only [List.mem_cons, List.mem_singleton, List.not_mem_nil, or_false] at hc
  rcases hc with hc | hc <;> rw [hc] <;> exact hexDigit_isLowerHexDigit _

theorem sha256Hex_chars (data : String) : (sha256Hex data).data.all isLowerHexDigit = true :=
  hexEncodeToString_chars _

/-- Claim C18: for every record of each of the four kinds, the hash that the hash function
of the kind computes is a string of exactly 64 characters, and each of them is a lower-case
hexadecimal digit, `0` to `9` or `a` to `f`. -/
theorem hashes_are_64_lower_hex_digits {E : Type} (marshal : List E → String)
    (v : ValidationRecord) (a : AppealRecord E) (c : AccessCheckRecord)
    (g : GeofenceCheckRecord) :
    ((calculateHash v).length = 64 ∧
      (calculateHash v).data.all isLowerHexDigit = true) ∧
    ((calculateAppealHash marshal a).length = 64 ∧
      (calculateAppealHash marshal a).data.all isLowerHexDigit = true) ∧
    ((calculateAccessCheckHash c).length = 64 ∧
      (calculateAccessCheckHash c).data.all isLowerHexDigit = true) ∧
    ((calculateGeofenceCheckHash g).length = 64 ∧
      (calculateGeofenceCheckHash g).data.all isLowerHexDigit = true) :=
  ⟨⟨sha256Hex_length _, sha256Hex_chars _⟩, ⟨sha256Hex_length _, sha256Hex_chars _⟩,
    ⟨sha256Hex_length _, sha256Hex_chars _⟩, ⟨sha256Hex_length _, sha256Hex_chars _⟩⟩

/-! ## The timestamp in the hash -/

theorem FormatRFC3339_congr (t u : Time) (hsec : t.sec = u.sec) (hoff : t.offset = u.offset) :
    t.FormatRFC3339 = u.FormatRFC3339 := by
  unfold Time.FormatRFC3339
  rw [hsec, hoff]

set_option maxRecDepth 100000 in
theorem calculateHash_recA_ne_recAz : calculateHash recA ≠ calculateHash recAz := by decide

/-- Claim C19 refuted: the validation records `recA` and `recAz` are equal in every field
but the timestamp, their timestamps are the same instant, the first in UTC and the second
in the zone `+03:00`; the timestamps are formatted in their own zones, and the hashes of
the two records differ. -/
theorem hash_depends_on_time_zone :
    recAz = { recA with Timestamp := recAz.Timestamp } ∧
    recA.Timestamp.sameInstant recAz.Timestamp ∧
    recA.Timestamp.FormatRFC3339 = "2023-11-14T22:13:20Z" ∧
    recAz.Timestamp.FormatRFC3339 = "2023-11-15T01:13:20+03:00" ∧
    calculateHash recA ≠ calculateHash recAz :=
  ⟨rfl, by decide, by decide, by decide, calculateHash_recA_ne_recAz⟩

/-- Claim C19 as amended: the timestamp is formatted to the second in its own zone offset;
for every record of each of the four kinds, another timestamp that lies in the same second
and has the same zone offset gives the same hash. -/
theorem hash_same_for_same_second_and_zone {E : Type} (marshal : List E → String)
    (v : ValidationRecord) (a : AppealRecord E) (c : AccessCheckRecord)
    (g : GeofenceCheckRecord) (t : Time) :
    (t.sec = v.Timestamp.sec → t.offset = v.Timestamp.offset →
      calculateHash { v with Timestamp := t } = calculateHash v) ∧
    (t.sec = a.SubmittedAt.sec → t.offset = a.SubmittedAt.offset →
      calculateAppealHash marshal { a with SubmittedAt := t } = calculateAppealHash marshal a) ∧
    (t.sec = c.Timestamp.sec → t.offset = c.Timestamp.offset →
      calculateAccessCheckHash { c with Timestamp := t } = calculateAccessCheckHash c) ∧
    (t.sec = g.Timestamp.sec → t.offset = g.Timestamp.offset →
      calculateGeofenceCheckHash { g with Timestamp := t } = calculateGeofenceCheckHash g) := by
  refine ⟨?_, ?_, ?_, ?_⟩
  · intro hs ho
    simp only [calculateHash, calculateHashData, FormatRFC3339_congr t v.Timestamp hs ho]
  · intro hs ho
    simp only [calculateAppealHash, calculateAppealHashData,
      FormatRFC3339_congr t a.SubmittedAt hs ho]
  · intro hs ho
    simp only [calculateAccessCheckHash, calculateAccessCheckHashData,
      FormatRFC3339_congr t c.Timestamp hs ho]
  · intro hs ho
    simp only [calculateGeofenceCheckHash, calculateGeofenceCheckHashData,
      FormatRFC3339_congr t g.Timestamp hs ho]

/-- Witness of `hash_same_for_same_second_and_zone`: the record `recA` with half a second
added to its timestamp. -/
theorem hash_same_for_same_second_and_zone_witness :
    ((⟨1700000000, 500000000, 0⟩ : Time).sec = recA.Timestamp.sec ∧
      (⟨1700000000, 500000000, 0⟩ : Time).offset = recA.Timestamp.offset) ∧
    calculateHash { recA with Timestamp := ⟨1700000000, 500000000, 0⟩ } = calculateHash recA :=
  ⟨⟨rfl, rfl⟩,
    (hash_same_for_same_second_and_zone marshalUnit recA
      (AppealRecord.mk "" "" "" "" [] "" ⟨0, 0, 0⟩ "" "") recB
      (GeofenceCheckRecord.mk "" "" "" false ⟨0⟩ ⟨0⟩ ⟨0, 0, 0⟩ "" "" "")
      ⟨1700000000, 500000000, 0⟩).1 rfl rfl⟩

/-! ## The chain of an order with different timestamps -/

/-- A sequence sorted by timestamp without two records of the same instant is strictly
ascending. -/
theorem strict_of_sorted_distinct {l : List ChainRecord}
    (hs : l.Pairwise (fun a b => a.timestamp.le b.timestamp))
    (hd : l.Pairwise (fun a b => ¬ a.timestamp.sameInstant b.timestamp)) :
    l.Pairwise (fun a b => b.timestamp.After a.timestamp = true) := by
  refine (hs.and hd).imp ?_
  intro a b h
  have hle := h.1
  have hne := h.2
  unfold Time.le Time.After at hle
  unfold Time.sameInstant at hne
  unfold Time.After
  simp only [Bool.or_eq_true, Bool.and_eq_true, decide_eq_true_eq, Bool.or_eq_false_iff,
    Bool.and_eq_false_iff, decide_eq_false_iff_not] at *
  omega

/-- Claim C20: when the records collected for an order have pairwise different instants as
timestamps, every other enumeration of the same records gives the same hash chain; the
sorted sequence is strictly ascending by timestamp, and it is the only strictly ascending
arrangement of the records. -/
theorem hash_chain_unique_ascending {E : Type} (s1 s2 : InMemoryStorage E) (orderID : String)
    (hp : (collectRecords s1 orderID).Perm (collectRecords s2 orderID))
    (hd : (collectRecords s1 orderID).Pairwise
      (fun a b => ¬ a.timestamp.sameInstant b.timestamp)) :
    createHashChain s1 orderID = createHashChain s2 orderID ∧
    (sortByTimestamp (collectRecords s1 orderID)).Pairwise
      (fun a b => b.timestamp.After a.timestamp = true) ∧
    ∀ l : List ChainRecord, l.Perm (collectRecords s1 orderID) →
      l.Pairwise (fun a b => b.timestamp.After a.timestamp = true) →
        l = sortByTimestamp (collectRecords s1 orderID) := by
  have hsymm : ∀ {x y : ChainRecord}, ¬ x.timestamp.sameInstant y.timestamp →
      ¬ y.timestamp.sameInstant x.timestamp := by
    intro x y h hyx
    exact h ⟨hyx.1.symm, hyx.2.symm⟩
  refine ⟨?_, ?_, ?_⟩
  · unfold createHashChain
    rw [sortByTimestamp_unique hp hd]
  · exact strict_of_sorted_distinct (sortByTimestamp_sorted _)
      ((sortByTimestamp_perm _).symm.pairwise hd hsymm)
  · intro l hl hasc
    have hle : l.Pairwise (fun a b => a.timestamp.le b.timestamp) :=
      hasc.imp (fun {a b} h => Time.le_of_after h)
    exact sorted_unique (hl.trans (sortByTimestamp_perm _).symm) hle
      (sortByTimestamp_sorted _) (hl.symm.pairwise hd hsymm)

/-- Witness of `hash_chain_unique_ascending`: the validations `A` and `F` of order `O1`,
collected as `A, F` from `storageAF` and as `F, A` from `storageFA`. -/
theorem hash_chain_unique_ascending_witness :
    ((collectRecords storageAF "O1").Perm (collectRecords storageFA "O1") ∧
      (collectRecords storageAF "O1").Pairwise
        (fun a b => ¬ a.timestamp.sameInstant b.timestamp)) ∧
    createHashChain storageAF "O1" = createHashChain storageFA "O1" ∧
    (sortByTimestamp (collectRecords storageAF "O1")).Pairwise
      (fun a b => b.timestamp.After a.timestamp = true) ∧
    ∀ l : List ChainRecord, l.Perm (collectRecords storageAF "O1") →
      l.Pairwise (fun a b => b.timestamp.After a.timestamp = true) →
        l = sortByTimestamp (collectRecords storageAF "O1") :=
  have hp : (collectRecords storageAF "O1").Perm (collectRecords storageFA "O1") :=
    collectRecords_perm storageAF storageFA "O1" (List.reverse_perm _).symm (List.Perm.refl _)
      (List.Perm.refl _)
  have hd : (collectRecords storageAF "O1").Pairwise
      (fun a b => ¬ a.timestamp.sameInstant b.timestamp) := by decide
  ⟨⟨hp, hd⟩, hash_chain_unique_ascending storageAF storageFA "O1" hp hd⟩

/-! ## The Merkle root -/

theorem allHashes_eq_join (hashChain : List HashChainNode) :
    allHashes hashChain = String.join (hashChain.map (fun n => n.Hash)) := by
  unfold allHashes String.join
  rw [List.foldl_map]

set_option maxRecDepth 1000000 in
theorem merkle_root_storageADF :
    calculateMerkleRoot (createHashChain storageADF "O1") ≠
      specMerkleRoot ((createHashChain storageADF "O1").map (fun n => n.Hash)) := by
  decide

/-- Claim C12 refuted: for the chain of order `O1` in `storageADF`, which has the three
nodes `A`, `D`, `F`, the result of `calculateMerkleRoot` is not the root of the binary
Merkle tree over the node hashes. -/
theorem merkle_root_not_tree_root :
    (createHashChain storageADF "O1").map (fun n => n.Id) = ["A", "D", "F"] ∧
    calculateMerkleRoot (createHashChain storageADF "O1") ≠
      specMerkleRoot ((createHashChain storageADF "O1").map (fun n => n.Hash)) :=
  ⟨by decide, merkle_root_storageADF⟩

/-- Claim C12 as amended: for every hash chain with at least one node, `calculateMerkleRoot`
returns the SHA-256, in lower-case hexadecimal, of the node hashes joined in chain order;
for a chain of two nodes this is the root of the binary Merkle tree over the two hashes. -/
theorem merkle_root_is_hash_of_joined_hashes (n : HashChainNode)
    (rest : List HashChainNode) :
    calculateMerkleRoot (n :: rest) =
      sha256Hex (String.join ((n :: rest).map (fun m => m.Hash))) ∧
    ∀ m : HashChainNode, calculateMerkleRoot [n, m] = specMerkleRoot [n.Hash, m.Hash] := by
  refine ⟨?_, ?_⟩
  · rw [calculateMerkleRoot_cons, allHashes_eq_join]
  · intro m
    rw [calculateMerkleRoot_cons]
    rfl

/-! ## The bytes of a string -/

theorem uint8_and_toNat (a b : UInt8) : (a &&& b).toNat = a.toNat &&& b.toNat := by
  show (a.toBitVec &&& b.toBitVec).toNat = _
  simp [UInt8.toNat]

theorem uint8_or_toNat (a b : UInt8) : (a ||| b).toNat = a.toNat ||| b.toNat := by
  show (a.toBitVec ||| b.toBitVec).toNat = _
  simp [UInt8.toNat]

theorem uint32_toUInt8_toNat (v : UInt32) : v.toUInt8.toNat = v.toNat % 256 := by
  simp [UInt32.toUInt8, Nat.toUInt8, UInt8.ofNat, UInt8.toNat]

theorem uint32_shiftRight_toNat (v : UInt32) (k : UInt32) (hk : k.toNat < 32) :
    (v >>> k).toNat = v.toNat / 2 ^ k.toNat := by
  show (v.toBitVec >>> (UInt32.mod k 32).toBitVec).toNat = _
  have : (UInt32.mod k 32).toBitVec.toNat = k.toNat := by
    show (k.toBitVec % (32 : UInt32).toBitVec).toNat = _
    rw [BitVec.toNat_umod]
    exact Nat.mod_eq_of_lt hk
  simp [UInt32.toNat, BitVec.toNat_ushiftRight, this, Nat.shiftRight_eq_div_pow]

set_option maxRecDepth 100000 in
theorem mask_or_byte : ∀ y, y < 256 → (y &&& 63 ||| 128 = y % 64 + 128) ∧
    (y &&& 31 ||| 192 = y % 32 + 192) ∧ (y &&& 15 ||| 224 = y % 16 + 224) ∧
    (y &&& 7 ||| 240 = y % 8 + 240) := by
  decide

theorem mask_or (m t : Nat) (x : Nat) (hm : m = 63 ∧ t = 128 ∨ m = 31 ∧ t = 192 ∨ m = 15 ∧ t = 224 ∨ m = 7 ∧ t = 240) :
    (x % 256 &&& m) ||| t = x % (m + 1) + t := by
  have hx := mask_or_byte (x % 256) (Nat.mod_lt _ (by decide))
  rcases hm with ⟨rfl, rfl⟩ | ⟨rfl, rfl⟩ | ⟨rfl, rfl⟩ | ⟨rfl, rfl⟩
  · rw [hx.1]; omega
  · rw [hx.2.1]; omega
  · rw [hx.2.2.1]; omega
  · rw [hx.2.2.2]; omega

theorem utf8EncodeChar_toNat (c : Char) :
    (String.utf8EncodeChar c).map UInt8.toNat = utf8Nat c.val.toNat := by
  have h7f : (c.val ≤ 0x7f) ↔ c.val.toNat ≤ 127 := Iff.rfl
  have h7ff : (c.val ≤ 0x7ff) ↔ c.val.toNat ≤ 2047 := Iff.rfl
  have hffff : (c.val ≤ 0xffff) ↔ c.val.toNat ≤ 65535 := Iff.rfl
  have c3f : (0x3f : UInt8).toNat = 63 := rfl
  have c80 : (0x80 : UInt8).toNat = 128 := rfl
  have c1f : (0x1f : UInt8).toNat = 31 := rfl
  have cc0 : (0xc0 : UInt8).toNat = 192 := rfl
  have c0f : (0x0f : UInt8).toNat = 15 := rfl
  have ce0 : (0xe0 : UInt8).toNat = 224 := rfl
  have c07 : (0x07 : UInt8).toNat = 7 := rfl
  have cf0 : (0xf0 : UInt8).toNat = 240 := rfl
  have s6 := uint32_shiftRight_toNat c.val 6 (by decide)
  have s12 := uint32_shiftRight_toNat c.val 12 (by decide)
  have s18 := uint32_shiftRight_toNat c.val 18 (by decide)
  have k6 : (6 : UInt32).toNat = 6 := rfl
  have k12 : (12 : UInt32).toNat = 12 := rfl
  have k18 : (18 : UInt32).toNat = 18 := rfl
  rw [k6] at s6
  rw [k12] at s12
  rw [k18] at s18
  unfold String.utf8EncodeChar utf8Nat
  simp only [h7f, h7ff, hffff]
  split_ifs
  · simp only [List.map_cons, List.map_nil, uint32_toUInt8_toNat]
  · simp only [List.map_cons, List.map_nil, uint8_or_toNat, uint8_and_toNat,
      uint32_toUInt8_toNat, s6, c3f, c80, c1f, cc0]
    rw [mask_or 31 192 _ (by simp), mask_or 63 128 _ (by simp)]
    norm_num
  · simp only [List.map_cons, List.map_nil, uint8_or_toNat, uint8_and_toNat,
      uint32_toUInt8_toNat, s6, s12, c3f, c80, c0f, ce0]
    rw [mask_or 15 224 _ (by simp), mask_or 63 128 _ (by simp), mask_or 63 128 _ (by simp)]
    norm_num
  · simp only [List.map_cons, List.map_nil, uint8_or_toNat, uint8_and_toNat,
      uint32_toUInt8_toNat, s6, s12, s18, c3f, c80, c07, cf0]
    rw [mask_or 7 240 _ (by simp), mask_or 63 128 _ (by simp), mask_or 63 128 _ (by simp),
      mask_or 63 128 _ (by simp)]
    norm_num

theorem utf8Nat_append_inj (v w : Nat) (X Y : List Nat) (hv : v < 1114112) (hw : w < 1114112)
    (h : utf8Nat v ++ X = utf8Nat w ++ Y) : v = w ∧ X = Y := by
  unfold utf8Nat at h
  split_ifs at h <;>
    simp only [List.cons_append, List.nil_append, List.cons.injEq] at h <;>
    first
    | exact ⟨by omega, h.2⟩
    | exact ⟨by omega, h.2.2⟩
    | exact ⟨by omega, h.2.2.2⟩
    | exact ⟨by omega, h.2.2.2.2⟩
    | (exfalso; omega)

theorem utf8Nat_ne_nil (v : Nat) : utf8Nat v ≠ [] := by
  unfold utf8Nat
  split_ifs <;> simp

theorem char_toNat_lt (c : Char) : c.val.toNat < 1114112 := by
  have h := c.valid
  unfold UInt32.isValidChar Nat.isValidChar at h
  omega

theorem utf8Nat_flatMap_inj (l1 : List Char) :
    ∀ l2 : List Char, l1.flatMap (fun c => utf8Nat c.val.toNat) =
      l2.flatMap (fun c => utf8Nat c.val.toNat) → l1 = l2 := by
  induction l1 with
  | nil =>
    intro l2 h
    cases l2 with
    | nil => rfl
    | cons d ds =>
      exfalso
      simp only [List.flatMap_nil, List.flatMap_cons] at h
      have := congrArg List.length h
      have hne := utf8Nat_ne_nil d.val.toNat
      cases hd : utf8Nat d.val.toNat with
      | nil => exact hne hd
      | cons a as => rw [hd] at this; simp at this
  | cons c cs ih =>
    intro l2 h
    cases l2 with
    | nil =>
      exfalso
      simp only [List.flatMap_nil, List.flatMap_cons] at h
      have := congrArg List.length h
      have hne := utf8Nat_ne_nil c.val.toNat
      cases hd : utf8Nat c.val.toNat with
      | nil => exact hne hd
      | cons a as => rw [hd] at this; simp at this
    | cons d ds =>
      simp only [List.flatMap_cons] at h
      obtain ⟨hvw, hrest⟩ := utf8Nat_append_inj _ _ _ _ (char_toNat_lt c) (char_toNat_lt d) h
      have hcd : c = d := Char.eq_of_val_eq (UInt32.ext hvw)
      rw [hcd, ih ds hrest]

/-- Go `[]byte(s)` is one-to-one: strings with the same bytes are equal. -/
theorem bytesOf_injective {s t : String} (h : bytesOf s = bytesOf t) : s = t := by
  have hs : ∀ u : String, (bytesOf u).map UInt8.toNat =
      u.data.flatMap (fun c => utf8Nat c.val.toNat) := by
    intro u
    show (u.data.flatMap String.utf8EncodeChar).map UInt8.toNat = _
    rw [List.map_flatMap]
    congr 1
    funext c
    exact utf8EncodeChar_toNat c
  have h2 := congrArg (List.map UInt8.toNat) h
  rw [hs, hs] at h2
  exact String.ext (utf8Nat_flatMap_inj _ _ h2)

/-! ## One changed hash and the Merkle root -/

set_option maxRecDepth 100000 in
theorem hexDigit_inj : ∀ n, n < 16 → ∀ m, m < 16 → hexDigit n = hexDigit m → n = m := by
  decide

theorem hexEncodeToString_injective (bs1 : List UInt8) :
    ∀ bs2 : List UInt8, hexEncodeToString bs1 = hexEncodeToString bs2 → bs1 = bs2 := by
  unfold hexEncodeToString
  induction bs1 with
  | nil =>
    intro bs2 h
    cases bs2 with
    | nil => rfl
    | cons b rest => simp [String.ext_iff] at h
  | cons a rest ih =>
    intro bs2 h
    cases bs2 with
    | nil => simp [String.ext_iff] at h
    | cons b rest2 =>
      simp only [String.ext_iff, List.flatMap_cons, List.cons_append, List.nil_append,
        List.cons.injEq] at h
      obtain ⟨h1, h2, h3⟩ := h
      have ha : a.toNat < 256 := a.toNat_lt
      have hb : b.toNat < 256 := b.toNat_lt
      have e1 := hexDigit_inj _ (by omega) _ (by omega) h1
      have e2 := hexDigit_inj _ (by omega) _ (by omega) h2
      have hab : a = b := UInt8.ext (by omega)
      rw [hab, ih rest2 (String.ext h3)]

theorem foldl_hashes (l : List HashChainNode) :
    ∀ acc : String, l.foldl (fun acc node => acc ++ node.Hash) acc = acc ++ allHashes l := by
  unfold allHashes
  induction l with
  | nil => intro acc; simp
  | cons n rest ih =>
    intro acc
    simp only [List.foldl_cons]
    rw [ih (acc ++ n.Hash), ih ("" ++ n.Hash), String.empty_append, String.append_assoc]

theorem allHashes_cons (n : HashChainNode) (l : List HashChainNode) :
    allHashes (n :: l) = n.Hash ++ allHashes l := by
  have := foldl_hashes l ("" ++ n.Hash)
  rw [String.empty_append] at this
  exact this

theorem allHashes_append (l1 l2 : List HashChainNode) :
    allHashes (l1 ++ l2) = allHashes l1 ++ allHashes l2 := by
  induction l1 with
  | nil => simp [allHashes]
  | cons n rest ih => rw [List.cons_append, allHashes_cons, allHashes_cons, ih, String.append_assoc]

/-- Claim C17: in every hash chain, replacing the `Hash` of the node at one position by
another string changes the string `allHashes` that `calculateMerkleRoot` builds and the
byte sequence `[]byte(allHashes)` that it feeds to SHA-256; the Merkle root is the
hexadecimal form of the digest of that byte sequence, so the Merkle root changes whenever
the two digests differ.  The hashes need not have 64 characters for this. -/
theorem merkle_input_changes_with_one_hash (hashChain : List HashChainNode) (i : Nat)
    (node : HashChainNode) (newHash : String)
    (hi : hashChain[i]? = some node) (hne : newHash ≠ node.Hash) :
    allHashes (hashChain.set i { node with Hash := newHash }) ≠ allHashes hashChain ∧
    bytesOf (allHashes (hashChain.set i { node with Hash := newHash })) ≠
      bytesOf (allHashes hashChain) ∧
    calculateMerkleRoot hashChain =
      hexEncodeToString (sha256 (bytesOf (allHashes hashChain))) ∧
    calculateMerkleRoot (hashChain.set i { node with Hash := newHash }) =
      hexEncodeToString
        (sha256 (bytesOf (allHashes (hashChain.set i { node with Hash := newHash })))) ∧
    (sha256 (bytesOf (allHashes (hashChain.set i { node with Hash := newHash }))) ≠
        sha256 (bytesOf (allHashes hashChain)) →
      calculateMerkleRoot (hashChain.set i { node with Hash := newHash }) ≠
        calculateMerkleRoot hashChain) := by
  obtain ⟨hlt, hnode⟩ := List.getElem?_eq_some_iff.mp hi
  have hsplit : hashChain = hashChain.take i ++ node :: hashChain.drop (i + 1) := by
    rw [← hnode, List.getElem_cons_drop, List.take_append_drop]
  have hset : hashChain.set i { node with Hash := newHash } =
      hashChain.take i ++ { node with Hash := newHash } :: hashChain.drop (i + 1) := by
    rw [List.set_eq_take_append_cons_drop, if_pos hlt]
  have hin : allHashes (hashChain.set i { node with Hash := newHash }) ≠ allHashes hashChain := by
    intro h
    rw [hset] at h
    conv at h => rhs; rw [hsplit]
    rw [allHashes_append, allHashes_append, allHashes_cons, allHashes_cons] at h
    simp only [str_append_right_inj, str_append_left_inj] at h
    exact hne h
  have hroot : ∀ l : List HashChainNode, l ≠ [] →
      calculateMerkleRoot l = hexEncodeToString (sha256 (bytesOf (allHashes l))) := by
    intro l hl
    cases l with
    | nil => exact absurd rfl hl
    | cons n rest => exact calculateMerkleRoot_cons n rest
  have hne1 : hashChain ≠ [] := by
    intro h
    rw [h] at hlt
    simp at hlt
  have hne2 : hashChain.set i { node with Hash := newHash } ≠ [] := by
    intro h
    have := congrArg List.length h
    rw [List.length_set] at this
    simp only [List.length_nil] at this
    omega
  refine ⟨hin, fun h => hin (bytesOf_injective h), hroot _ hne1, hroot _ hne2, ?_⟩
  intro hdig h
  rw [hroot _ hne1, hroot _ hne2] at h
  exact hdig (hexEncodeToString_injective _ _ h)

/-- Witness of `merkle_input_changes_with_one_hash`: in the chain of order `O1` in
`storageAB`, the hash of the one node is replaced by the hash of `recAz`. -/
theorem merkle_input_changes_with_one_hash_witness :
    ((createHashChain storageAB "O1")[0]? =
        some ⟨"A", "VALIDATION", calculateHash recA, "", recA.Timestamp.FormatRFC3339⟩ ∧
      calculateHash recAz ≠ calculateHash recA) ∧
    allHashes ((createHashChain storageAB "O1").set 0
        ⟨"A", "VALIDATION", calculateHash recAz, "", recA.Timestamp.FormatRFC3339⟩) ≠
      allHashes (createHashChain storageAB "O1") :=
  ⟨⟨rfl, fun h => calculateHash_recA_ne_recAz h.symm⟩,
    (merkle_input_changes_with_one_hash (createHashChain storageAB "O1") 0
      ⟨"A", "VALIDATION", calculateHash recA, "", recA.Timestamp.FormatRFC3339⟩
      (calculateHash recAz) rfl (fun h => calculateHash_recA_ne_recAz h.symm)).1⟩

/-! ## The frame of the `Store*` calls -/

theorem updateUserHistory_get_other {E : Type} (s : InMemoryStorage E) (userID u : String)
    (v : Option ValidationRecord) (a : Option (AppealRecord E)) (c : Option AccessCheckRecord)
    (g : Option GeofenceCheckRecord) (h : u ≠ userID) :
    (updateUserHistory s userID v a c g).userHistories.get u = s.userHistories.get u := by
  simp [updateUserHistory, GoMap.get_set, h]

/-- Claim C21: for every storage and every `Store*` call with a record of user `u`, the
history that the storage holds for every other user is the same after the call; in the
history of `u` the `UserID` and the sequences of the three other kinds are the same; the
maps of the three other kinds are the same; and the stored record is the given record with
only `Hash` and `PreviousHash` set. -/
theorem store_frame {E : Type} (marshal : List E → String) (s : InMemoryStorage E)
    (v : ValidationRecord) (a : AppealRecord E) (c : AccessCheckRecord)
    (g : GeofenceCheckRecord) :
    ((∀ u, u ≠ v.UserID →
        (StoreValidation s v).1.userHistories.get u = s.userHistories.get u) ∧
      (GetUserHistory (StoreValidation s v).1 v.UserID).2.1 =
        { (GetUserHistory s v.UserID).2.1 with
          Validations := (GetUserHistory (StoreValidation s v).1 v.UserID).2.1.Validations } ∧
      (StoreValidation s v).1.appeals = s.appeals ∧
      (StoreValidation s v).1.accessChecks = s.accessChecks ∧
      (StoreValidation s v).1.geofenceChecks = s.geofenceChecks ∧
      ∃ stored, (StoreValidation s v).1.validations.get v.EventID = some stored ∧
        stored = { v with Hash := stored.Hash, PreviousHash := stored.PreviousHash }) ∧
    ((∀ u, u ≠ a.UserID →
        (StoreAppeal marshal s a).1.userHistories.get u = s.userHistories.get u) ∧
      (GetUserHistory (StoreAppeal marshal s a).1 a.UserID).2.1 =
        { (GetUserHistory s a.UserID).2.1 with
          Appeals := (GetUserHistory (StoreAppeal marshal s a).1 a.UserID).2.1.Appeals } ∧
      (StoreAppeal marshal s a).1.validations = s.validations ∧
      (StoreAppeal marshal s a).1.accessChecks = s.accessChecks ∧
      (StoreAppeal marshal s a).1.geofenceChecks = s.geofenceChecks ∧
      ∃ stored, (StoreAppeal marshal s a).1.appeals.get a.AppealID = some stored ∧
        stored = { a with Hash := stored.Hash, PreviousHash := stored.PreviousHash }) ∧
    ((∀ u, u ≠ c.UserID →
        (StoreAccessCheck s c).1.userHistories.get u = s.userHistories.get u) ∧
      (GetUserHistory (StoreAccessCheck s c).1 c.UserID).2.1 =
        { (GetUserHistory s c.UserID).2.1 with
          AccessChecks :=
            (GetUserHistory (StoreAccessCheck s c).1 c.UserID).2.1.AccessChecks } ∧
      (StoreAccessCheck s c).1.validations = s.validations ∧
      (StoreAccessCheck s c).1.appeals = s.appeals ∧
      (StoreAccessCheck s c).1.geofenceChecks = s.geofenceChecks ∧
      ∃ stored, (StoreAccessCheck s c).1.accessChecks.get c.ID = some stored ∧
        stored = { c with Hash := stored.Hash, PreviousHash := stored.PreviousHash }) ∧
    ((∀ u, u ≠ g.UserID →
        (StoreGeofenceCheck s g).1.userHistories.get u = s.userHistories.get u) ∧
      (GetUserHistory (StoreGeofenceCheck s g).1 g.UserID).2.1 =
        { (GetUserHistory s g.UserID).2.1 with
          GeofenceChecks :=
            (GetUserHistory (StoreGeofenceCheck s g).1 g.UserID).2.1.GeofenceChecks } ∧
      (StoreGeofenceCheck s g).1.validations = s.validations ∧
      (StoreGeofenceCheck s g).1.appeals = s.appeals ∧
      (StoreGeofenceCheck s g).1.accessChecks = s.accessChecks ∧
      ∃ stored, (StoreGeofenceCheck s g).1.geofenceChecks.get g.ID = some stored ∧
        stored = { g with Hash := stored.Hash, PreviousHash := stored.PreviousHash }) := by
  refine ⟨⟨?_, ?_, rfl, rfl, rfl, _, StoreValidation_get s v, rfl⟩,
    ⟨?_, ?_, rfl, rfl, rfl, _, StoreAppeal_get marshal s a, rfl⟩,
    ⟨?_, ?_, rfl, rfl, rfl, _, StoreAccessCheck_get s c, rfl⟩,
    ⟨?_, ?_, rfl, rfl, rfl, _, StoreGeofenceCheck_get s g, rfl⟩⟩
  · intro u hu
    exact updateUserHistory_get_other _ _ _ _ _ _ _ hu
  · rw [history_StoreValidation]
    simp
  · intro u hu
    exact updateUserHistory_get_other _ _ _ _ _ _ _ hu
  · rw [history_StoreAppeal]
    simp
  · intro u hu
    exact updateUserHistory_get_other _ _ _ _ _ _ _ hu
  · rw [history_StoreAccessCheck]
    simp
  · intro u hu
    exact updateUserHistory_get_other _ _ _ _ _ _ _ hu
  · rw [history_StoreGeofenceCheck]
    simp

/-- Witness of `store_frame`: `StoreValidation` of `recE` (user `U2`) on the storage
`storageAB`, which holds a history for user `U1`, leaves the history of `U1` as it is. -/
theorem store_frame_witness :
    "U1" ≠ recE.UserID ∧
    (StoreValidation storageAB recE).1.userHistories.get "U1" =
      storageAB.userHistories.get "U1" :=
  ⟨by decide,
    (store_frame marshalUnit storageAB recE
      (AppealRecord.mk "" "" "" "" [] "" ⟨0, 0, 0⟩ "" "") recB
      (GeofenceCheckRecord.mk "" "" "" false ⟨0⟩ ⟨0⟩ ⟨0, 0, 0⟩ "" "" "")).1.1 "U1" (by decide)⟩

/-! ## Lemmas on `float64` -/

theorem Float64.lt_iff (x y : Float64) :
    x.lt y = true ↔ x.isNaN = false ∧ y.isNaN = false ∧ x.key < y.key := by
  unfold Float64.lt
  simp [and_assoc]

theorem Float64.le_iff (x y : Float64) :
    x.le y = true ↔ x.isNaN = false ∧ y.isNaN = false ∧ x.key ≤ y.key := by
  unfold Float64.le
  simp [and_assoc]

theorem Float64.lt_of_le_of_lt {x y z : Float64} (hxy : x.le y = true) (hyz : y.lt z = true) :
    x.lt z = true := by
  rw [Float64.le_iff] at hxy
  rw [Float64.lt_iff] at hyz ⊢
  exact ⟨hxy.1, hyz.2.1, Int.lt_of_le_of_lt hxy.2.2 hyz.2.2⟩

set_option maxRecDepth 100000 in
theorem score_bounds_ordered :
    (Float64.ofRatio 25 1).le (Float64.ofRatio 50 1) = true ∧
    (Float64.ofRatio 50 1).le (Float64.ofRatio 75 1) = true := by
  decide

theorem lt_25_lt_50 {x : Float64} (h : x.lt (Float64.ofRatio 25 1) = true) :
    x.lt (Float64.ofRatio 50 1) = true := by
  have hc := score_bounds_ordered.1
  rw [Float64.le_iff] at hc
  rw [Float64.lt_iff] at h ⊢
  exact ⟨h.1, hc.2.1, Int.lt_of_lt_of_le h.2.2 hc.2.2⟩

theorem lt_50_lt_75 {x : Float64} (h : x.lt (Float64.ofRatio 50 1) = true) :
    x.lt (Float64.ofRatio 75 1) = true := by
  have hc := score_bounds_ordered.2
  rw [Float64.le_iff] at hc
  rw [Float64.lt_iff] at h ⊢
  exact ⟨h.1, hc.2.1, Int.lt_of_lt_of_le h.2.2 hc.2.2⟩

/-! ## Trust level and security requirements -/

/-- The three comparisons of a score and the level that `getTrustLevel` gives it. -/
theorem trust_level_of_comparisons (x : Float64) :
    (x.lt (Float64.ofRatio 25 1) = true ↔ getTrustLevel x = TrustLevel.TRUST_LEVEL_CRITICAL) ∧
    (x.lt (Float64.ofRatio 50 1) = true ↔
      getTrustLevel x = TrustLevel.TRUST_LEVEL_CRITICAL ∨
        getTrustLevel x = TrustLevel.TRUST_LEVEL_LOW) ∧
    (x.lt (Float64.ofRatio 75 1) = true ↔ getTrustLevel x ≠ TrustLevel.TRUST_LEVEL_HIGH) := by
  unfold getTrustLevel
  by_cases h25 : x.lt (Float64.ofRatio 25 1) = true
  · have h50 := lt_25_lt_50 h25
    have h75 := lt_50_lt_75 h50
    simp [h25, h50, h75]
  · by_cases h50 : x.lt (Float64.ofRatio 50 1) = true
    · have h75 := lt_50_lt_75 h50
      simp [h25, h50, h75]
    · by_cases h75 : x.lt (Float64.ofRatio 75 1) = true
      · simp [h25, h50, h75]
      · simp [h25, h50, h75]

theorem CalculateTrustScore_eq {E : Type} (env : OracleEnv) (s : InMemoryStorage E)
    (userID : String) :
    CalculateTrustScore env s userID =
      (s,
        some
          { UserId := userID
            TrustScore := weightedTrustScore env (GetUserHistory s userID).2.1
            TrustLevel := getTrustLevel (weightedTrustScore env (GetUserHistory s userID).2.1)
            LastUpdated := env.now.UTC.FormatRFC3339
            SecurityRequirements :=
              { RequiresBiometrics :=
                  (weightedTrustScore env (GetUserHistory s userID).2.1).lt (Float64.ofRatio 75 1)
                RequiresAppeal :=
                  (weightedTrustScore env (GetUserHistory s userID).2.1).lt (Float64.ofRatio 50 1)
                RequiresManualReview :=
                  (weightedTrustScore env (GetUserHistory s userID).2.1).lt (Float64.ofRatio 25 1)
                RestrictedActions := getRestrictedActions
                  (getTrustLevel (weightedTrustScore env (GetUserHistory s userID).2.1)) } },
        none) := by
  unfold CalculateTrustScore GetUserHistory
  cases s.userHistories.get userID <;> rfl

/-- Claim C22: for every storage and user, `CalculateTrustScore` returns a response and no
error, and in the response `RequiresManualReview` holds exactly when the level is
`CRITICAL`, `RequiresAppeal` exactly when the level is `CRITICAL` or `LOW`, and
`RequiresBiometrics` exactly when the level is not `HIGH`; this holds for every value of the
score, NaN included. -/
theorem requirements_agree_with_level {E : Type} (env : OracleEnv) (s : InMemoryStorage E)
    (userID : String) :
    ∃ resp, CalculateTrustScore env s userID = (s, some resp, none) ∧
      resp.TrustLevel = getTrustLevel resp.TrustScore ∧
      (resp.SecurityRequirements.RequiresManualReview = true ↔
        resp.TrustLevel = TrustLevel.TRUST_LEVEL_CRITICAL) ∧
      (resp.SecurityRequirements.RequiresAppeal = true ↔
        resp.TrustLevel = TrustLevel.TRUST_LEVEL_CRITICAL ∨
          resp.TrustLevel = TrustLevel.TRUST_LEVEL_LOW) ∧
      (resp.SecurityRequirements.RequiresBiometrics = true ↔
        resp.TrustLevel ≠ TrustLevel.TRUST_LEVEL_HIGH) := by
  have h := trust_level_of_comparisons (weightedTrustScore env (GetUserHistory s userID).2.1)
  exact ⟨_, CalculateTrustScore_eq env s userID, rfl, h.1, h.2.1, h.2.2⟩

/-- The restricted actions of a level of lower rank include those of a level of higher
rank. -/
theorem restricted_actions_nested (l1 l2 : TrustLevel) (h : l1.rank ≤ l2.rank) :
    ∀ action ∈ getRestrictedActions l2, action ∈ getRestrictedActions l1 := by
  cases l1 <;> cases l2 <;> simp [TrustLevel.rank, getRestrictedActions] at h ⊢

theorem getTrustLevel_rank_mono {s1 s2 : Float64} (h : s1.le s2 = true) :
    (getTrustLevel s1).rank ≤ (getTrustLevel s2).rank := by
  have m25 : s2.lt (Float64.ofRatio 25 1) = true → s1.lt (Float64.ofRatio 25 1) = true :=
    Float64.lt_of_le_of_lt h
  have m50 : s2.lt (Float64.ofRatio 50 1) = true → s1.lt (Float64.ofRatio 50 1) = true :=
    Float64.lt_of_le_of_lt h
  have m75 : s2.lt (Float64.ofRatio 75 1) = true → s1.lt (Float64.ofRatio 75 1) = true :=
    Float64.lt_of_le_of_lt h
  unfold getTrustLevel
  by_cases a25 : s1.lt (Float64.ofRatio 25 1) = true
  · simp [a25, TrustLevel.rank]
  · have b25 : ¬ s2.lt (Float64.ofRatio 25 1) = true := fun hb => a25 (m25 hb)
    by_cases a50 : s1.lt (Float64.ofRatio 50 1) = true
    · simp only [a25, a50, b25, if_true, if_false, Bool.false_eq_true]
      split_ifs <;> simp [TrustLevel.rank]
    · have b50 : ¬ s2.lt (Float64.ofRatio 50 1) = true := fun hb => a50 (m50 hb)
      by_cases a75 : s1.lt (Float64.ofRatio 75 1) = true
      · simp only [a25, a50, a75, b25, b50, if_true, if_false, Bool.false_eq_true]
        split_ifs <;> simp [TrustLevel.rank]
      · have b75 : ¬ s2.lt (Float64.ofRatio 75 1) = true := fun hb => a75 (m75 hb)
        simp [a25, a50, a75, b25, b50, b75, TrustLevel.rank]

/-- Claim C24: for every two scores with `s1 <= s2`, the level of `s1` does not rank above
the level of `s2`, and every action restricted at the level of `s2` is restricted at the
level of `s1`; the restricted actions of a level include those of every level of higher
rank, and the level `HIGH` restricts no action. -/
theorem trust_level_monotone (s1 s2 : Float64) (h : s1.le s2 = true) :
    (getTrustLevel s1).rank ≤ (getTrustLevel s2).rank ∧
    (∀ action ∈ getRestrictedActions (getTrustLevel s2),
      action ∈ getRestrictedActions (getTrustLevel s1)) ∧
    (∀ l1 l2 : TrustLevel, l1.rank ≤ l2.rank →
      ∀ action ∈ getRestrictedActions l2, action ∈ getRestrictedActions l1) ∧
    getRestrictedActions TrustLevel.TRUST_LEVEL_HIGH = [] :=
  ⟨getTrustLevel_rank_mono h,
    restricted_actions_nested _ _ (getTrustLevel_rank_mono h),
    restricted_actions_nested, rfl⟩

set_option maxRecDepth 100000 in
theorem sample_scores :
    (Float64.ofRatio 20 1).le (Float64.ofRatio 60 1) = true ∧
    getTrustLevel (Float64.ofRatio 20 1) = TrustLevel.TRUST_LEVEL_CRITICAL ∧
    getTrustLevel (Float64.ofRatio 60 1) = TrustLevel.TRUST_LEVEL_MEDIUM := by
  decide

/-- Witness of `trust_level_monotone`: the scores 20 and 60, of the levels `CRITICAL` and
`MEDIUM`. -/
theorem trust_level_monotone_witness :
    (Float64.ofRatio 20 1).le (Float64.ofRatio 60 1) = true ∧
    (getTrustLevel (Float64.ofRatio 20 1)).rank ≤ (getTrustLevel (Float64.ofRatio 60 1)).rank ∧
    ∀ action ∈ getRestrictedActions (getTrustLevel (Float64.ofRatio 60 1)),
      action ∈ getRestrictedActions (getTrustLevel (Float64.ofRatio 20 1)) :=
  ⟨sample_scores.1,
    (trust_level_monotone (Float64.ofRatio 20 1) (Float64.ofRatio 60 1) sample_scores.1).1,
    (trust_level_monotone (Float64.ofRatio 20 1) (Float64.ofRatio 60 1) sample_scores.1).2.1⟩

/-! ## Lemmas on the deviation -/

theorem Float64.key_nonpos_of_signBit {x : Float64} (h : x.signBit = true) : x.key ≤ 0 := by
  unfold Float64.key
  simp only [h, if_true]
  exact Int.neg_nonpos_of_nonneg (Int.ofNat_nonneg _)

/-- A number built by `Float64.ofScaled` has the given sign and is not NaN. -/
theorem Float64.ofScaled_sign (neg : Bool) (num den : Nat) :
    (Float64.ofScaled neg num den).signBit = neg ∧
      (Float64.ofScaled neg num den).isNaN = false := by
  unfold Float64.ofScaled
  simp only
  generalize log2Nat (num / den) (num / den) - 52 = k
  generalize hm : min (k * 2 ^ 52 + roundHalfEven num (den * 2 ^ k)) (2047 * 2 ^ 52) = mag
  have hmag : mag ≤ 2047 * 2 ^ 52 := by
    rw [← hm]
    exact Nat.min_le_right _ _
  unfold Float64.signBit Float64.isNaN Float64.expField Float64.frac
  cases neg
  · simp only [Bool.false_eq_true, if_false, Nat.zero_add]
    refine ⟨?_, ?_⟩
    · simp only [decide_eq_false_iff_not]
      omega
    · simp only [Bool.and_eq_false_iff, decide_eq_false_iff_not, ne_eq, not_not]
      omega
  · simp only [if_true]
    refine ⟨?_, ?_⟩
    · simp only [decide_eq_true_eq]
      omega
    · simp only [Bool.and_eq_false_iff, decide_eq_false_iff_not, ne_eq, not_not]
      omega

theorem Float64.ofScaled_zero (den : Nat) : Float64.ofScaled false 0 den = ⟨0⟩ := by
  unfold Float64.ofScaled roundHalfEven
  simp [log2Nat]

set_option maxRecDepth 100000 in
/-- Facts on the mock median `1000.0`, on its negation and on the thresholds. -/
theorem median_facts :
    (Float64.ofRatio 1000 1).isNaN = false ∧
    (Float64.ofRatio 1000 1).isInf = false ∧
    (Float64.ofRatio 1000 1).signBit = false ∧
    (Float64.ofRatio 1000 1).scaled ≠ 0 ∧
    (Float64.ofRatio 1000 1).key < ((2 ^ 2100 : Nat) : Int) ∧
    (Float64.ofRatio 1000 1).le (Float64.ofRatio 0 1) = false ∧
    (Float64.ofRatio 1000 1).neg.isNaN = false ∧
    (Float64.ofRatio 1000 1).neg.isInf = false ∧
    (Float64.ofRatio 1000 1).neg.key = -(Float64.ofRatio 1000 1).key ∧
    AuditRequiredThreshold.isNaN = false ∧
    RejectThreshold.isNaN = false ∧
    0 < AuditRequiredThreshold.key ∧
    0 < RejectThreshold.key := by
  decide

set_option maxRecDepth 100000 in
theorem zero_inf_facts :
    (Float64.zero true).isNaN = false ∧ (Float64.zero true).key = 0 ∧
    (Float64.zero false).isNaN = false ∧ (Float64.zero false).key = 0 ∧
    (Float64.inf true).isNaN = false ∧ (Float64.inf true).key ≤ 0 ∧
    (⟨0⟩ : Float64).isNaN = false ∧ (⟨0⟩ : Float64).key = 0 := by
  decide

/-- A number that is not NaN and not above zero. -/
theorem sub_median_nonpos {t : Float64} (h : t.le (Float64.ofRatio 1000 1) = true) :
    (t.sub (Float64.ofRatio 1000 1)).isNaN = false ∧
      (t.sub (Float64.ofRatio 1000 1)).key ≤ 0 := by
  obtain ⟨m1, m2, m3, m4, m5, m6, n1, n2, n3, _⟩ := median_facts
  obtain ⟨z1, z2, z3, z4, i1, i2, _⟩ := zero_inf_facts
  rw [Float64.le_iff] at h
  obtain ⟨ht, _, hkey⟩ := h
  unfold Float64.sub Float64.add
  simp only [ht, n1, n2, Bool.or_self, Bool.false_eq_true, if_false, Bool.false_and]
  by_cases hinf : t.isInf = true
  · simp only [hinf, if_true]
    have hs : t.signBit = true := by
      by_contra hs
      have he : t.expField = 2047 := by
        unfold Float64.isInf at hinf
        simp only [Bool.and_eq_true, decide_eq_true_eq] at hinf
        exact hinf.1
      have hk : t.key = ((2 ^ 2100 : Nat) : Int) := by
        unfold Float64.key
        simp [hs, he]
      omega
    rw [hs]
    exact ⟨i1, i2⟩
  · simp only [hinf, Bool.false_eq_true, if_false]
    rw [n3]
    by_cases hn : t.key + -(Float64.ofRatio 1000 1).key = 0
    · simp only [hn, if_true]
      cases (t.signBit && (Float64.ofRatio 1000 1).neg.signBit)
      · exact ⟨z3, Int.le_of_eq z4⟩
      · exact ⟨z1, Int.le_of_eq z2⟩
    · simp only [hn, if_false]
      have hlt : t.key + -(Float64.ofRatio 1000 1).key < 0 := by omega
      simp only [hlt, decide_True]
      exact ⟨(Float64.ofScaled_sign true _ _).2,
        Float64.key_nonpos_of_signBit (Float64.ofScaled_sign true _ _).1⟩

theorem div_median_nonpos {d : Float64} (hnan : d.isNaN = false) (hkey : d.key ≤ 0) :
    (d.div (Float64.ofRatio 1000 1)).isNaN = false ∧
      (d.div (Float64.ofRatio 1000 1)).key ≤ 0 := by
  obtain ⟨m1, m2, m3, m4, _⟩ := median_facts
  obtain ⟨_, _, _, _, i1, i2, o1, o2⟩ := zero_inf_facts
  unfold Float64.div
  simp only [hnan, m1, m2, m3, m4, Bool.or_self, Bool.false_eq_true, if_false, Bool.bne_false]
  by_cases hs : d.signBit = true
  · rw [hs]
    by_cases hinf : d.isInf = true
    · simp only [hinf, if_true]
      exact ⟨i1, i2⟩
    · simp only [hinf, Bool.false_eq_true, if_false]
      exact ⟨(Float64.ofScaled_sign true _ _).2,
        Float64.key_nonpos_of_signBit (Float64.ofScaled_sign true _ _).1⟩
  · have hs2 : d.signBit = false := by simpa using hs
    have hk : d.key = ((if d.expField = 2047 then 2 ^ 2100 else d.scaled : Nat) : Int) := by
      unfold Float64.key
      simp [hs2]
    have hzero : (if d.expField = 2047 then 2 ^ 2100 else d.scaled : Nat) = 0 := by omega
    have he : ¬ d.expField = 2047 := by
      intro he
      rw [if_pos he] at hzero
      exact absurd hzero (by positivity)
    rw [if_neg he] at hzero
    have hinf : d.isInf = false := by
      unfold Float64.isInf
      simp [he]
    simp only [hinf, Bool.false_eq_true, if_false, hs2, hzero, Nat.zero_mul,
      Float64.ofScaled_zero]
    exact ⟨o1, Int.le_of_eq o2⟩

theorem not_gt_of_nonpos {d c : Float64} (hkey : d.key ≤ 0) (hc : 0 < c.key) :
    d.gt c = false := by
  cases h : d.gt c with
  | false => rfl
  | true =>
    unfold Float64.gt at h
    rw [Float64.lt_iff] at h
    omega

/-- The deviation of a total that is not above the median is not above zero, and so not
above either threshold. -/
theorem deviation_of_total_below_median {t : Float64}
    (h : t.le (Float64.ofRatio 1000 1) = true) :
    (calculateDeviation (Float64.ofRatio 1000 1) t).gt RejectThreshold = false ∧
      (calculateDeviation (Float64.ofRatio 1000 1) t).gt AuditRequiredThreshold = false := by
  obtain ⟨_, _, _, _, _, m6, _, _, _, _, _, a1, r1⟩ := median_facts
  have hs := sub_median_nonpos h
  have hd := div_median_nonpos hs.1 hs.2
  unfold calculateDeviation
  simp only [m6, Bool.false_eq_true, if_false]
  exact ⟨not_gt_of_nonpos hd.2 r1, not_gt_of_nonpos hd.2 a1⟩

/-! ## The verdict of `ValidateManualCostEntry` -/

theorem ValidateManualCostEntry_eq {E : Type} (env : OracleEnv) (s : InMemoryStorage E)
    (req : ManualCostEntryRequest) :
    ValidateManualCostEntry env s req =
      ((StoreValidation s
          (validationRecordOf env req (Float64.ofRatio 1000 1)
            (calculateDeviation (Float64.ofRatio 1000 1)
              (req.MaterialsCost.add req.LaborCost)))).1,
        some
          { EventId := req.EventId
            Status := (validationVerdict (calculateDeviation (Float64.ofRatio 1000 1)
              (req.MaterialsCost.add req.LaborCost))).1
            Deviation := calculateDeviation (Float64.ofRatio 1000 1)
              (req.MaterialsCost.add req.LaborCost)
            MedianPrice := Float64.ofRatio 1000 1
            SuggestedMedian := Float64.ofRatio 1000 1
            AuditRequired := (validationVerdict (calculateDeviation (Float64.ofRatio 1000 1)
              (req.MaterialsCost.add req.LaborCost))).2.1
            Reason := (validationVerdict (calculateDeviation (Float64.ofRatio 1000 1)
              (req.MaterialsCost.add req.LaborCost))).2.2
            ValidatedAt := env.now.UTC.FormatRFC3339 },
        none) := rfl

/-- The status and the audit flag for a deviation, by the two comparisons. -/
theorem validationVerdict_cases (d : Float64) :
    ((validationVerdict d).1 = ValidationStatus.VALIDATION_STATUS_REJECTED ↔
      d.gt RejectThreshold = true) ∧
    ((validationVerdict d).1 = ValidationStatus.VALIDATION_STATUS_AUDIT_REQUIRED ↔
      AuditRequiredThreshold.lt d = true ∧ d.le RejectThreshold = true) ∧
    ((validationVerdict d).1 = ValidationStatus.VALIDATION_STATUS_APPROVED ↔
      ¬ d.gt RejectThreshold = true ∧
        ¬ (AuditRequiredThreshold.lt d = true ∧ d.le RejectThreshold = true)) ∧
    ((validationVerdict d).2.1 = true ↔
      (validationVerdict d).1 = ValidationStatus.VALIDATION_STATUS_AUDIT_REQUIRED) := by
  obtain ⟨_, _, _, _, _, _, _, _, _, a0, r0, _, _⟩ := median_facts
  have hle : d.gt AuditRequiredThreshold = true →
      (d.le RejectThreshold = true ↔ ¬ d.gt RejectThreshold = true) := by
    intro ha
    unfold Float64.gt at ha ⊢
    rw [Float64.lt_iff] at ha
    rw [Float64.le_iff, Float64.lt_iff]
    constructor
    · intro h1 h2
      omega
    · intro h1
      refine ⟨ha.2.1, r0, ?_⟩
      by_contra h3
      exact h1 ⟨r0, ha.2.1, by omega⟩
  have hgt : AuditRequiredThreshold.lt d = d.gt AuditRequiredThreshold := rfl
  unfold validationVerdict
  by_cases hr : d.gt RejectThreshold = true
  · have hnle : ¬ d.le RejectThreshold = true := by
      intro h1
      unfold Float64.gt at hr
      rw [Float64.lt_iff] at hr
      rw [Float64.le_iff] at h1
      omega
    simp [hr, hnle]
  · by_cases ha : d.gt AuditRequiredThreshold = true
    · have := (hle ha).mpr hr
      simp [hr, ha, hgt, this]
    · simp [hr, ha, hgt]

/-- Claim C23: for every request, `ValidateManualCostEntry` returns a response and no error;
the deviation is `(materialsCost + laborCost - median) / median` in `float64` arithmetic
for the median `1000.0`; the status is `REJECTED` exactly when the deviation is above
`0.40`, `AUDIT_REQUIRED` exactly when it is above `0.20` and not above `0.40`, and
`APPROVED` in every other case; `AuditRequired` holds exactly for `AUDIT_REQUIRED`; the
record passed to `StoreValidation` has the name of the status, the deviation and the audit
flag of the response; and a total that is not above the median is approved. -/
theorem manual_cost_entry_verdict {E : Type} (env : OracleEnv) (s : InMemoryStorage E)
    (req : ManualCostEntryRequest) :
    ∃ resp record,
      ValidateManualCostEntry env s req = ((StoreValidation s record).1, some resp, none) ∧
      resp.Deviation =
        ((req.MaterialsCost.add req.LaborCost).sub (Float64.ofRatio 1000 1)).div
          (Float64.ofRatio 1000 1) ∧
      (resp.Status = ValidationStatus.VALIDATION_STATUS_REJECTED ↔
        resp.Deviation.gt RejectThreshold = true) ∧
      (resp.Status = ValidationStatus.VALIDATION_STATUS_AUDIT_REQUIRED ↔
        AuditRequiredThreshold.lt resp.Deviation = true ∧
          resp.Deviation.le RejectThreshold = true) ∧
      (resp.Status = ValidationStatus.VALIDATION_STATUS_APPROVED ↔
        ¬ resp.Deviation.gt RejectThreshold = true ∧
          ¬ (AuditRequiredThreshold.lt resp.Deviation = true ∧
            resp.Deviation.le RejectThreshold = true)) ∧
      (resp.AuditRequired = true ↔
        resp.Status = ValidationStatus.VALIDATION_STATUS_AUDIT_REQUIRED) ∧
      record.Status = env.validationStatusString resp.Status ∧
      record.Deviation = resp.Deviation ∧
      record.AuditRequired = resp.AuditRequired ∧
      ((req.MaterialsCost.add req.LaborCost).le (Float64.ofRatio 1000 1) = true →
        resp.Status = ValidationStatus.VALIDATION_STATUS_APPROVED) := by
  obtain ⟨_, _, _, _, _, m6, _⟩ := median_facts
  have hc := validationVerdict_cases
    (calculateDeviation (Float64.ofRatio 1000 1) (req.MaterialsCost.add req.LaborCost))
  have hdev : calculateDeviation (Float64.ofRatio 1000 1)
      (req.MaterialsCost.add req.LaborCost) =
      ((req.MaterialsCost.add req.LaborCost).sub (Float64.ofRatio 1000 1)).div
        (Float64.ofRatio 1000 1) := by
    unfold calculateDeviation
    simp only [m6, Bool.false_eq_true, if_false]
  refine ⟨{ EventId := req.EventId
            Status := (validationVerdict (calculateDeviation (Float64.ofRatio 1000 1)
              (req.MaterialsCost.add req.LaborCost))).1
            Deviation := calculateDeviation (Float64.ofRatio 1000 1)
              (req.MaterialsCost.add req.LaborCost)
            MedianPrice := Float64.ofRatio 1000 1
            SuggestedMedian := Float64.ofRatio 1000 1
            AuditRequired := (validationVerdict (calculateDeviation (Float64.ofRatio 1000 1)
              (req.MaterialsCost.add req.LaborCost))).2.1
            Reason := (validationVerdict (calculateDeviation (Float64.ofRatio 1000 1)
              (req.MaterialsCost.add req.LaborCost))).2.2
            ValidatedAt := env.now.UTC.FormatRFC3339 },
    validationRecordOf env req (Float64.ofRatio 1000 1)
      (calculateDeviation (Float64.ofRatio 1000 1) (req.MaterialsCost.add req.LaborCost)),
    ValidateManualCostEntry_eq env s req, ?_, ?_, ?_, ?_, ?_, ?_, ?_, ?_, ?_⟩ <;>
    dsimp only [validationRecordOf]
  · exact hdev
  · exact hc.1
  · exact hc.2.1
  · exact hc.2.2.1
  · exact hc.2.2.2
  intro htotal
  have hd := deviation_of_total_below_median htotal
  refine hc.2.2.1.mpr ⟨by simp [hd.1], ?_⟩
  intro h
  have h2 : (calculateDeviation (Float64.ofRatio 1000 1)
      (req.MaterialsCost.add req.LaborCost)).gt AuditRequiredThreshold = true := h.1
  rw [hd.2] at h2
  exact absurd h2 (by simp)

set_option maxRecDepth 100000 in
theorem sample_total_below_median :
    (sampleRequest.MaterialsCost.add sampleRequest.LaborCost).le (Float64.ofRatio 1000 1) =
      true := by
  decide

/-- Witness of `manual_cost_entry_verdict`: the request `sampleRequest`, whose total 900 is
below the median, is approved. -/
theorem manual_cost_entry_verdict_witness :
    (sampleRequest.MaterialsCost.add sampleRequest.LaborCost).le (Float64.ofRatio 1000 1) =
      true ∧
    ∃ resp record,
      ValidateManualCostEntry sampleOracleEnv (NewInMemoryStorage : InMemoryStorage Unit)
          sampleRequest =
        ((StoreValidation (NewInMemoryStorage : InMemoryStorage Unit) record).1, some resp,
          none) ∧
      resp.Status = ValidationStatus.VALIDATION_STATUS_APPROVED :=
  ⟨sample_total_below_median,
    match manual_cost_entry_verdict sampleOracleEnv (NewInMemoryStorage : InMemoryStorage Unit)
      sampleRequest with
    | ⟨resp, record, heq, _, _, _, _, _, _, _, _, happ⟩ =>
      ⟨resp, record, heq, happ sample_total_below_median⟩⟩

end Worm
